import Mathlib

/-!
# Graph library page: loader, search and pagination of `src/js/graph-viewer.js`

A shallow embedding of the `GraphLibrary` class: the fields the search and
pagination methods read and write become a record, each method becomes a
function from the record before the call to the record after it, and a
callback that can throw returns `Except`.

Conventions of the embedding.

* A JavaScript string is the list of its UTF-16 code units.
* `String.prototype.toLowerCase` depends on the Unicode case tables, which are
  not part of the repository: every function that lower-cases takes the
  mapping as the argument `lower`.  `asciiLower` is its restriction to strings
  whose cased letters are ASCII and is used for concrete evaluations.
* Page numbers, page sizes and indices are integers.  The model covers
  `entriesPerPage > 0` (the `PaginationState` invariant); for such values and
  array lengths (below `2^32`) the double-precision quotient
  `length / entriesPerPage` is never rounded onto or across an integer, so
  `Math.ceil` of it is the exact integer ceiling.
* The DOM is reduced to what the claims observe: `container` holds the entries
  whose cards `renderEntries` appended to `#entries-container`.  The page has
  every element the class looks up by id.
* A method that can throw after it has assigned fields returns an `Outcome`:
  the fields when the call ends, and the exception that ended it, if any.
* The loader's concurrency is the completion order of its promises, a
  `Schedule`; `Promise.all` is its reaction loop run over that order.  JSON
  parsing is a parameter of the `Site`, like the documents themselves.
* Timers run on a millisecond clock: `setTimeout` adds a pending timer that
  fires when it is due unless `clearTimeout` drops it first.
* A disabled button receives no click.  The navigation controls are a `Page`:
  the fields together with the controls as `updatePagination` last drew them.
* Of `src/js/content-loader.js` only the control flow of `populatePage` is
  embedded: which sections it populates and where it throws.
-/

namespace GraphViewer

/-! ## Strings -/

/-- A JavaScript string: its sequence of UTF-16 code units. -/
abbrev JSString := List Nat

/-- UTF-16 encoding of a Lean string literal, used to write concrete inputs. -/
def utf16 (s : String) : JSString :=
  (s.toList.map fun c =>
    let n := c.toNat
    if n < 65536 then [n]
    else [55296 + (n - 65536) / 1024, 56320 + (n - 65536) % 1024]).flatten

/-- The code units `String.prototype.trim` strips: ECMAScript `WhiteSpace`
and `LineTerminator`. -/
def isWhiteSpace (c : Nat) : Bool :=
  c == 9 || c == 10 || c == 11 || c == 12 || c == 13 || c == 32 || c == 160 ||
  c == 5760 || (8192 ≤ c && c ≤ 8202) || c == 8232 || c == 8233 ||
  c == 8239 || c == 8287 || c == 12288 || c == 65279

/-- `String.prototype.trim`: strip white space from both ends. -/
def trim (s : JSString) : JSString :=
  (s.dropWhile isWhiteSpace).rdropWhile isWhiteSpace

/-- `String.prototype.includes`: `q` occurs in `s` as a contiguous run of
code units. -/
def includes (s q : JSString) : Bool :=
  s.tails.any fun t => q.isPrefixOf t

/-- The ASCII part of `toLowerCase`: `A`..`Z` go to `a`..`z`, every other code
unit is kept. -/
def asciiLower (s : JSString) : JSString :=
  s.map fun c => if 65 ≤ c ∧ c ≤ 90 then c + 32 else c

/-- A string that is empty or consists only of white space. -/
def isBlank (s : JSString) : Bool := s.all isWhiteSpace

/-! ## Arrays and numbers -/

/-- `Array.prototype.slice(start, end)` for integer arguments: a negative index
counts from the end, both indices are clamped to `[0, length]`, and the
result is empty when the clamped end does not exceed the clamped start. -/
def slice {α : Type} (xs : List α) (start endIndex : Int) : List α :=
  let len : Int := xs.length
  let k : Int := if start < 0 then max (len + start) 0 else min start len
  let final : Int := if endIndex < 0 then max (len + endIndex) 0 else min endIndex len
  (xs.drop k.toNat).take (final - k).toNat

/-- `Math.ceil(a / b)` for integers `a ≥ 0` and `b > 0`. -/
def ceilDiv (a b : Int) : Int := (a + b - 1) / b

/-! ## Data model -/

/-- One element of `entry.versions`, as built at lines 116-119. -/
structure Version where
  version : JSString
  graphData : JSString
deriving DecidableEq, Repr

/-- An element of `this.entries`: the manifest fields the class reads, plus the
`versions` array added by the loader (line 123).

`title` and `description` are the display strings every manifest carries.
`tags` is `none` when the manifest has no `tags` property.  `graphData` is the
entry's OWN `graphData` property as `JSON.stringify` renders it, and `none`
when the entry has no such property (then `entry.graphData` is `undefined`
and `JSON.stringify(undefined)` is `undefined`, not a string).  The loader
never adds this property: it stores payloads under `versions`. -/
structure Entry where
  title : JSString
  description : JSString
  tags : Option (List JSString)
  image : Option JSString
  versions : List Version
  graphData : Option JSString
deriving DecidableEq, Repr

/-- The exception a method call on `undefined` raises. -/
inductive JSError where
  | typeError
deriving DecidableEq, Repr

deriving instance DecidableEq for Except

/-- The fields of a `GraphLibrary` instance that search and pagination use. -/
structure GraphLibrary where
  entries : List Entry
  filteredEntries : List Entry
  currentPage : Int
  entriesPerPage : Int
  totalPages : Int
  container : List Entry
deriving DecidableEq, Repr

/-! ## Search -/

/-- The callback of `this.entries.filter` (lines 178-187).  All four constants
are evaluated before the `return`, so the `toLowerCase` call on the result of
`JSON.stringify(entry.graphData)` runs for every entry and throws when that
result is `undefined`. -/
def entryMatches (lower : JSString → JSString) (query : JSString) (entry : Entry) :
    Except JSError Bool :=
  let inTitle := includes (lower entry.title) query
  let inDesc := includes (lower entry.description) query
  let inTags :=
    match entry.tags with
    | none => false
    | some tags => tags.any fun tag => includes (lower tag) query
  match entry.graphData with
  | none => Except.error JSError.typeError
  | some text =>
    let inGraphData := includes (lower text) query
    Except.ok (inTitle || inDesc || inTags || inGraphData)

/-- `Array.prototype.filter` with a callback that may throw: elements are
visited left to right and the first exception aborts the whole call. -/
def filterE {α : Type} (p : α → Except JSError Bool) : List α → Except JSError (List α)
  | [] => Except.ok []
  | x :: xs =>
    match p x with
    | Except.error e => Except.error e
    | Except.ok b =>
      match filterE p xs with
      | Except.error e => Except.error e
      | Except.ok ys => Except.ok (if b then x :: ys else ys)

/-- The value of the filter callback on an entry that has a `graphData`
property of its own. -/
def matchesOwn (lower : JSString → JSString) (query : JSString) (entry : Entry) : Bool :=
  includes (lower entry.title) query || includes (lower entry.description) query ||
    (match entry.tags with
      | none => false
      | some tags => tags.any fun tag => includes (lower tag) query) ||
    (match entry.graphData with
      | none => false
      | some text => includes (lower text) query)

/-! ## Pagination -/

/-- The clamp of the pagination contract: `x` forced into `[lo, hi]`. -/
def clamp (x lo hi : Int) : Int := max lo (min x hi)


/-- `getCurrentPageEntries` (lines 203-207). -/
def getCurrentPageEntries (s : GraphLibrary) : List Entry :=
  let startIndex := (s.currentPage - 1) * s.entriesPerPage
  let endIndex := startIndex + s.entriesPerPage
  slice s.filteredEntries startIndex endIndex

/-- The part of an entry card that the version selector and the copy button
act on (lines 282-323): the value of the read-only text field, the text
captured by the click listener that `createCopyButton` registers (line 301),
and whether a change event has assigned `copyBtn.onclick` (line 316). -/
structure Card where
  entry : Entry
  inputValue : JSString
  listenerText : JSString
  onclickBound : Bool
deriving DecidableEq, Repr

/-- Assigning to `value` of an `<input type="text">`: the value sanitization
of the text state strips line feeds and carriage returns. -/
def textInputValue (text : JSString) : JSString :=
  text.filter fun c => !(c == 10 || c == 13)

/-- `createGraphInputContainer` at card creation (lines 282-308): reading
`entry.versions[0].graphData` throws when the entry has no version. -/
def createGraphInputContainer (entry : Entry) : Except JSError Card :=
  match entry.versions with
  | [] => Except.error JSError.typeError
  | first :: _ =>
    Except.ok
      { entry := entry
        inputValue := textInputValue first.graphData
        listenerText := textInputValue first.graphData
        onclickBound := false }

/-- `createEntryElement` (lines 226-280): of its steps only
`createGraphInputContainer` can throw. -/
def createEntryElement (entry : Entry) : Except JSError Card :=
  createGraphInputContainer entry

/-- The `forEach` of `renderEntries` (lines 220-223): cards are appended one by
one; an exception of `createEntryElement` ends the loop and leaves the cards
appended so far. -/
def appendCards : List Entry → List Entry × Option JSError
  | [] => ([], none)
  | entry :: rest =>
    match createEntryElement entry with
    | Except.error e => ([], some e)
    | Except.ok _ => (entry :: (appendCards rest).1, (appendCards rest).2)

/-- What a method call leaves behind: the fields of `this` when the call ends,
and the exception that ended it, if any. -/
structure Outcome where
  state : GraphLibrary
  error : Option JSError
deriving DecidableEq, Repr

/-- The statement that follows a call: it runs only when the call returned. -/
def Outcome.next (r : Outcome) (f : GraphLibrary → GraphLibrary) : Outcome :=
  match r.error with
  | some _ => r
  | none => { state := f r.state, error := none }

/-- `renderEntries` (lines 209-224): the container is emptied and refilled with
the cards of the current page window (an empty window shows the no-results
block instead, recorded as the empty list). -/
def renderEntries (s : GraphLibrary) : Outcome :=
  let pageEntries := getCurrentPageEntries s
  { state := { s with container := (appendCards pageEntries).1 }
    error := (appendCards pageEntries).2 }

/-- `updatePagination` (lines 371-377), fields only. -/
def updatePagination (s : GraphLibrary) : GraphLibrary :=
  let totalPages := ceilDiv s.filteredEntries.length s.entriesPerPage
  { s with
    totalPages := totalPages
    currentPage := max 1 (min s.currentPage totalPages) }

/-- `performSearch` (lines 172-194); `searchInputValue` is
`this.searchInput.value`.  An exception of the filter callback leaves the
method before any assignment to `this`; an exception of `renderEntries` leaves
it before `updatePagination`. -/
def performSearch (lower : JSString → JSString) (s : GraphLibrary)
    (searchInputValue : JSString) : Outcome :=
  let query := trim (lower searchInputValue)
  let filtered : Except JSError (List Entry) :=
    if query = [] then Except.ok s.entries
    else filterE (entryMatches lower query) s.entries
  match filtered with
  | Except.error e => { state := s, error := some e }
  | Except.ok es =>
    let s1 := { s with filteredEntries := es }
    let s2 := { s1 with currentPage := 1 }
    (renderEntries s2).next updatePagination

/-- `handlePageSizeChange` (lines 196-202); `pageSize` is
`parseInt(this.pageSizeSelect.value)`. -/
def handlePageSizeChange (s : GraphLibrary) (pageSize : Int) : Outcome :=
  let s1 := { s with entriesPerPage := pageSize }
  let s2 := { s1 with currentPage := 1 }
  (renderEntries s2).next updatePagination

/-- `goToPage` (lines 445-453). -/
def goToPage (s : GraphLibrary) (page : Int) : Outcome :=
  let s1 := { s with currentPage := page }
  (renderEntries s1).next updatePagination

/-! ## Version selector and copy button -/

/-- The lower-case hexadecimal digit of `n < 16`, as a code unit. -/
def hexDigit (n : Nat) : Nat := if n < 10 then 48 + n else 87 + n

/-- `UnicodeEscape`: a backslash, `u`, and four hexadecimal digits. -/
def unicodeEscape (c : Nat) : JSString :=
  [92, 117, hexDigit (c / 4096 % 16), hexDigit (c / 256 % 16), hexDigit (c / 16 % 16),
    hexDigit (c % 16)]

/-- The text `QuoteJSONString` emits for one code unit that is not part of a
surrogate pair. -/
def quoteUnit (c : Nat) : JSString :=
  if c = 8 then [92, 98]
  else if c = 9 then [92, 116]
  else if c = 10 then [92, 110]
  else if c = 12 then [92, 102]
  else if c = 13 then [92, 114]
  else if c = 34 then [92, 34]
  else if c = 92 then [92, 92]
  else if c < 32 ∨ (55296 ≤ c ∧ c ≤ 57343) then unicodeEscape c
  else [c]

/-- The body of `QuoteJSONString`: a well-formed surrogate pair is copied, every
other code unit goes through `quoteUnit`. -/
def quoteUnits : JSString → JSString
  | [] => []
  | [c] => quoteUnit c
  | c :: d :: rest =>
    if (55296 ≤ c ∧ c ≤ 56319) ∧ (56320 ≤ d ∧ d ≤ 57343) then c :: d :: quoteUnits rest
    else quoteUnit c ++ quoteUnits (d :: rest)

/-- `JSON.stringify(text, null, 2)` for a string `text`: the quoted, escaped
string (the indentation argument has no effect on a string). -/
def jsonStringifyString (text : JSString) : JSString :=
  34 :: quoteUnits text ++ [34]

/-- The `change` listener of the version selector (lines 311-320);
`selectedVersion` is `e.target.value`. -/
def Card.changeVersion (card : Card) (selectedVersion : JSString) : Card :=
  match card.entry.versions.find? fun v => v.version == selectedVersion with
  | some selectedGraph =>
    { card with
      inputValue := textInputValue (jsonStringifyString selectedGraph.graphData)
      onclickBound := true }
  | none => card

/-- The texts passed to `handleCopy`, hence to the clipboard, by one click on
the copy button, in order: the listener of `createCopyButton` with its captured
text, then the `onclick` handler (if assigned) with the current field value. -/
def Card.copyClick (card : Card) : List JSString :=
  card.listenerText :: (if card.onclickBound then [card.inputValue] else [])

/-! ## Page-number bar -/

/-- A child of `#page-numbers`: a numbered button (its page, and whether it
carries the `active` class) or an ellipsis. -/
inductive PageItem where
  | pageNumber (page : Int) (active : Bool)
  | ellipsis
deriving DecidableEq, Repr

/-- The values `i` takes in `for (let i = startPage; i <= endPage; i++)`. -/
def pagesFromTo (startPage endPage : Int) : List Int :=
  (List.range (endPage + 1 - startPage).toNat).map fun (k : Nat) => startPage + (k : Int)

/-- `addPageNumber` (lines 424-430): the button appended for `pageNumber`. -/
def addPageNumber (s : GraphLibrary) (pageNumber : Int) : PageItem :=
  PageItem.pageNumber pageNumber (pageNumber == s.currentPage)

/-- The `startPage` and `endPage` that `updatePageNumbers` computes
(lines 398-406). -/
def pageWindow (s : GraphLibrary) : Int × Int :=
  let startPage := max 1 (s.currentPage - 2)
  let endPage := min s.totalPages (s.currentPage + 2)
  if s.currentPage ≤ 3 then (startPage, min 5 s.totalPages)
  else if s.currentPage ≥ s.totalPages - 2 then (max 1 (s.totalPages - 4), endPage)
  else (startPage, endPage)

/-- `updatePageNumbers` (lines 388-422): the children of `#page-numbers` after
the call. -/
def updatePageNumbers (s : GraphLibrary) : List PageItem :=
  if s.totalPages = 0 then []
  else
    let startPage := (pageWindow s).1
    let endPage := (pageWindow s).2
    (if startPage > 1 then [PageItem.ellipsis] else []) ++
      (pagesFromTo startPage endPage).map (addPageNumber s) ++
      (if endPage < s.totalPages then [PageItem.ellipsis] else [])

/-- The pages of the numbered buttons among the children, in document order. -/
def numberedButtons (items : List PageItem) : List Int :=
  items.filterMap fun item =>
    match item with
    | PageItem.pageNumber page _ => some page
    | PageItem.ellipsis => none

/-! ## Loader -/

/-- What `fetch(url)` settles with: a rejection (network failure) or a response
with its status and body text. -/
inductive FetchResult where
  | networkError
  | response (status : Nat) (body : JSString)
deriving DecidableEq, Repr

/-- `response.ok`: the status is in the range 200-299. -/
def statusOk (status : Nat) : Bool := 200 ≤ status && status ≤ 299

/-- The errors that reach the `catch` of `loadGraphData` (lines 133-136). -/
inductive LoadError where
  | fetchRejected
  | badStatus (status : Nat)
  | badDocument
  | renderFailed
deriving DecidableEq, Repr

/-- A group manifest after `response.json()`: the fields the class reads.
`graphs` lists `graph.version` for each descriptor of `generalData.graphs`. -/
structure Manifest where
  title : JSString
  description : JSString
  tags : Option (List JSString)
  image : Option JSString
  graphData : Option JSString
  graphs : List JSString
deriving DecidableEq, Repr

/-- The static content the page fetches.  `parseIndex` is `response.json()`
followed by `data.graphs` on the index document and `parseManifest` is
`response.json()` on a group manifest; each is `none` when the document is not
JSON of the expected shape (the `await` or the following `.map` then throws). -/
structure Site where
  fetch : JSString → FetchResult
  parseIndex : JSString → Option (List JSString)
  parseManifest : JSString → Option Manifest

/-- The URL of the index document (line 98). -/
def indexUrl : JSString := utf16 "content/graphs/general.json"

/-- The URL of a group manifest (line 104). -/
def manifestUrl (graphName : JSString) : JSString :=
  utf16 "content/graphs/" ++ graphName ++ utf16 "/general.json"

/-- The URL of a version payload (line 111). -/
def payloadUrl (graphName version : JSString) : JSString :=
  utf16 "content/graphs/" ++ graphName ++ utf16 "/ffmpeg_" ++ version ++ utf16 ".json"

/-- The state of a promise once the event loop has run dry. -/
inductive Promise (α : Type) where
  | pending
  | rejected (e : LoadError)
  | fulfilled (value : α)
deriving DecidableEq, Repr

/-- The reaction loop of `Promise.all`: the input promises settle in the order
`completion` (a list of indices into `promises`).  A rejection rejects the
result at once; a fulfilment stores the value in the slot of its index; the
result is fulfilled with the slots, in index order, once every slot is
filled. -/
def promiseAllLoop {α : Type} (promises : List (Promise α)) :
    List (Option α) → List Nat → Promise (List α)
  | values, [] =>
    if values.all Option.isSome then Promise.fulfilled (values.filterMap id)
    else Promise.pending
  | values, i :: rest =>
    match promises[i]? with
    | some (Promise.rejected e) => Promise.rejected e
    | some (Promise.fulfilled v) => promiseAllLoop promises (values.set i (some v)) rest
    | some Promise.pending => promiseAllLoop promises values rest
    | none => promiseAllLoop promises values rest

/-- `Promise.all(promises)` when the promises settle in the order
`completion`. -/
def promiseAll {α : Type} (promises : List (Promise α)) (completion : List Nat) :
    Promise (List α) :=
  promiseAllLoop promises (List.replicate promises.length none) completion

/-- `xs.map(f)` with the position of each element passed along. -/
def mapFrom {α β : Type} (f : Nat → α → β) : Nat → List α → List β
  | _, [] => []
  | i, x :: xs => f i x :: mapFrom f (i + 1) xs

/-- The order in which the concurrent fetches complete: `groups` is the order
in which the entry promises settle, and `versions i` the order in which the
version promises of the group at position `i` of the index settle. -/
structure Schedule where
  groups : List Nat
  versions : Nat → List Nat

/-- The async callback of `generalData.graphs.map` (lines 110-120). -/
def versionPromise (site : Site) (graphName version : JSString) : Promise Version :=
  match site.fetch (payloadUrl graphName version) with
  | FetchResult.networkError => Promise.rejected LoadError.fetchRejected
  | FetchResult.response status body =>
    if statusOk status then Promise.fulfilled { version := version, graphData := body }
    else Promise.rejected (LoadError.badStatus status)

/-- The object `{ ...generalData, versions }` of line 123.  The spread also
copies `graphs`, which no method reads from an entry. -/
def assembleEntry (generalData : Manifest) (versions : List Version) : Entry :=
  { title := generalData.title
    description := generalData.description
    tags := generalData.tags
    image := generalData.image
    versions := versions
    graphData := generalData.graphData }

/-- The async callback of `graphNames.map` (lines 103-124); `completion` is the
order in which the version promises of this group settle. -/
def entryPromise (site : Site) (completion : List Nat) (graphName : JSString) :
    Promise Entry :=
  match site.fetch (manifestUrl graphName) with
  | FetchResult.networkError => Promise.rejected LoadError.fetchRejected
  | FetchResult.response status body =>
    if statusOk status then
      match site.parseManifest body with
      | none => Promise.rejected LoadError.badDocument
      | some generalData =>
        match promiseAll (generalData.graphs.map (versionPromise site graphName)) completion with
        | Promise.pending => Promise.pending
        | Promise.rejected e => Promise.rejected e
        | Promise.fulfilled versions => Promise.fulfilled (assembleEntry generalData versions)
    else Promise.rejected (LoadError.badStatus status)

/-- The payload URLs that the callback of `graphNames.map` requests for one
group: none unless its manifest arrives and parses. -/
def payloadRequests (site : Site) (graphName : JSString) : List JSString :=
  match site.fetch (manifestUrl graphName) with
  | FetchResult.networkError => []
  | FetchResult.response status body =>
    if statusOk status then
      match site.parseManifest body with
      | none => []
      | some generalData => generalData.graphs.map (payloadUrl graphName)
    else []

/-- What `loadGraphData` leaves behind: the fields, the error whose message
`#error-message` shows (`none` when it is hidden), whether the loading message
is still displayed, and the URLs that were requested (index, then manifests in
index order, then payloads grouped by group). -/
structure LoadOutcome where
  state : GraphLibrary
  error : Option LoadError
  loading : Bool
  requests : List JSString
deriving DecidableEq, Repr

/-- The `catch` of `loadGraphData` (lines 133-136) with `showError`
(lines 480-489): the loading message is hidden, the error message is shown and
the container is emptied. -/
def failLoad (s : GraphLibrary) (e : LoadError) (requests : List JSString) : LoadOutcome :=
  { state := { s with container := [] }, error := some e, loading := false, requests := requests }

/-- `loadGraphData` (lines 94-137); `pageSize` is
`parseInt(this.pageSizeSelect?.value || 12)`.  When `Promise.all` never
settles the method stays suspended at line 126 with the loading message
displayed. -/
def loadGraphData (s : GraphLibrary) (site : Site) (pageSize : Int) (schedule : Schedule) :
    LoadOutcome :=
  match site.fetch indexUrl with
  | FetchResult.networkError => failLoad s LoadError.fetchRejected [indexUrl]
  | FetchResult.response status body =>
    if statusOk status then
      match site.parseIndex body with
      | none => failLoad s LoadError.badDocument [indexUrl]
      | some graphNames =>
        let requests := indexUrl :: (graphNames.map manifestUrl ++
          (graphNames.map (payloadRequests site)).flatten)
        let entryPromises :=
          mapFrom (fun i graphName => entryPromise site (schedule.versions i) graphName)
            0 graphNames
        match promiseAll entryPromises schedule.groups with
        | Promise.pending => { state := s, error := none, loading := true, requests := requests }
        | Promise.rejected e => failLoad s e requests
        | Promise.fulfilled entries =>
          let s1 := { s with entries := entries }
          let s2 := { s1 with filteredEntries := entries }
          let s3 := { s2 with entriesPerPage := pageSize }
          let rendered := renderEntries s3
          match rendered.error with
          | none =>
            { state := rendered.state, error := none, loading := false, requests := requests }
          | some _ => failLoad rendered.state LoadError.renderFailed requests
    else failLoad s (LoadError.badStatus status) [indexUrl]

/-- A fetch that counts as failed: the promise rejects, or the response has a
non-success status. -/
def fetchFails (r : FetchResult) : Bool :=
  match r with
  | FetchResult.networkError => true
  | FetchResult.response status _ => !statusOk status

/-- Every fetch of the load succeeds: the index document lists `graphNames`,
the manifest of each listed group parses to `manifests name`, and the payload
document of each of its versions has the body text `payloads name version`. -/
def AllFetchesSucceed (site : Site) (graphNames : List JSString)
    (manifests : JSString → Manifest) (payloads : JSString → JSString → JSString) : Prop :=
  (∃ status body, site.fetch indexUrl = FetchResult.response status body ∧
    statusOk status = true ∧ site.parseIndex body = some graphNames) ∧
  (∀ name ∈ graphNames, ∃ status body,
    site.fetch (manifestUrl name) = FetchResult.response status body ∧
    statusOk status = true ∧ site.parseManifest body = some (manifests name)) ∧
  (∀ name ∈ graphNames, ∀ version ∈ (manifests name).graphs, ∃ status,
    site.fetch (payloadUrl name version) = FetchResult.response status (payloads name version) ∧
    statusOk status = true)

/-- Every promise of the load settles at some point of the schedule. -/
def Schedule.Fair (schedule : Schedule) (graphNames : List JSString)
    (manifests : JSString → Manifest) : Prop :=
  (∀ i < graphNames.length, i ∈ schedule.groups) ∧
  (∀ i name, graphNames[i]? = some name →
    ∀ j < (manifests name).graphs.length, j ∈ schedule.versions i)

/-- The entry the loader assembles for the group `name` from its manifest and
the body texts of its payload documents. -/
def loadedEntry (manifests : JSString → Manifest) (payloads : JSString → JSString → JSString)
    (name : JSString) : Entry :=
  assembleEntry (manifests name)
    ((manifests name).graphs.map fun version =>
      { version := version, graphData := payloads name version })

/-- The slots of `Promise.all` after the promises with index in `done` have
been fulfilled with the values `vs`. -/
def slots {α : Type} (vs : List α) (done : List Nat) : List (Option α) :=
  (List.range vs.length).map fun j => if j ∈ done then vs[j]? else none

/-- The fields the constructor sets (lines 3-8). -/
def constructed : GraphLibrary :=
  { entries := []
    filteredEntries := []
    currentPage := 1
    entriesPerPage := 12
    totalPages := 1
    container := [] }

/-! ## Search debounce -/

/-- The search box and the timers of the page: the clock in milliseconds, the
value of the input, `this.searchTimeout` (the id returned by the last
`setTimeout`), the pending timers as pairs of id and due time, and the
`performSearch` invocations so far as pairs of time and input value read. -/
structure SearchBox where
  now : Nat
  value : JSString
  searchTimeout : Option Nat
  nextTimerId : Nat
  timers : List (Nat × Nat)
  searches : List (Nat × JSString)
deriving DecidableEq, Repr

/-- `clearTimeout(id)`: the timer with that id, if still pending, is dropped. -/
def clearTimeout (id : Option Nat) (timers : List (Nat × Nat)) : List (Nat × Nat) :=
  match id with
  | none => timers
  | some i => timers.filter fun timer => !(timer.1 == i)

/-- `handleSearchInput` (lines 165-170): the pending timer is cleared and a new
one, due in 300 ms, is stored in `this.searchTimeout`. -/
def handleSearchInput (b : SearchBox) : SearchBox :=
  { b with
    timers := clearTimeout b.searchTimeout b.timers ++ [(b.nextTimerId, b.now + 300)]
    searchTimeout := some b.nextTimerId
    nextTimerId := b.nextTimerId + 1 }

/-- The event loop up to time `t`: every pending timer due by then runs its
callback, which calls `performSearch` on the value the input holds. -/
def runTimersUntil (b : SearchBox) (t : Nat) : SearchBox :=
  { b with
    now := t
    searches := b.searches ++
      ((b.timers.filter fun timer => timer.2 ≤ t).map fun timer => (timer.2, b.value))
    timers := b.timers.filter fun timer => !(decide (timer.2 ≤ t)) }

/-- An `input` event at time `t` that leaves `value` in the search box
(lines 141-143). -/
def inputEvent (b : SearchBox) (event : Nat × JSString) : SearchBox :=
  handleSearchInput { runTimersUntil b event.1 with value := event.2 }

/-- The event loop run until no timer is pending. -/
def settle (b : SearchBox) : SearchBox :=
  { b with
    searches := b.searches ++ b.timers.map fun timer => (timer.2, b.value)
    timers := [] }

/-- The search box of a freshly constructed page (line 25). -/
def freshSearchBox : SearchBox :=
  { now := 0, value := [], searchTimeout := none, nextTimerId := 1, timers := [], searches := [] }

/-- The search box after the input events `events`, oldest first. -/
def afterEvents (events : List (Nat × JSString)) : SearchBox :=
  events.foldl inputEvent freshSearchBox

/-- The state right after an input event at time `t` with value `v` that ends a
burst: one pending timer, due at `t + 300`, held by `searchTimeout`, and no
search so far. -/
def Debounced (b : SearchBox) (t : Nat) (v : JSString) : Prop :=
  b.now = t ∧ b.value = v ∧ b.searches = [] ∧
    ∃ id, b.searchTimeout = some id ∧ b.timers = [(id, t + 300)]

/-! ## Operation sequences -/

/-- The search and pagination operations of the class, with their arguments. -/
inductive Operation where
  | performSearch (searchInputValue : JSString)
  | handlePageSizeChange (pageSize : Int)
  | goToPage (page : Int)
  | getCurrentPageEntries
  | updatePagination
deriving DecidableEq, Repr

/-- The fields after one operation, whether it returned or threw.
`getCurrentPageEntries` only returns a fresh array. -/
def Operation.run (lower : JSString → JSString) (s : GraphLibrary) : Operation → GraphLibrary
  | Operation.performSearch searchInputValue => (GraphViewer.performSearch lower s searchInputValue).state
  | Operation.handlePageSizeChange pageSize => (GraphViewer.handlePageSizeChange s pageSize).state
  | Operation.goToPage page => (GraphViewer.goToPage s page).state
  | Operation.getCurrentPageEntries => s
  | Operation.updatePagination => GraphViewer.updatePagination s

/-! ## Clipboard -/

/-- How the primary path `navigator.clipboard.writeText(text)` ends: the promise
is fulfilled, the promise is rejected, the call throws, or `navigator.clipboard`
is undefined, so that reading `writeText` throws before any call. -/
inductive ClipboardWrite where
  | fulfilled
  | rejected
  | threw
  | unavailable
deriving DecidableEq, Repr

/-- What one `handleCopy` call did: the argument of `writeText` (if it was
called), the argument of `fallbackCopy` (if it was invoked), the value of the
temporary field that `document.execCommand('copy')` copied, and the number of
`showCopySuccess` calls. -/
structure CopyTrace where
  writeText : Option JSString
  fallbackCopy : Option JSString
  execCommand : Option JSString
  confirmations : Nat
deriving DecidableEq, Repr

/-- `fallbackCopy` (lines 359-369), continuing the trace `sofar`. -/
def fallbackCopy (text : JSString) (sofar : CopyTrace) : CopyTrace :=
  { sofar with
    fallbackCopy := some text
    execCommand := some (textInputValue text)
    confirmations := sofar.confirmations + 1 }

/-- `handleCopy` (lines 338-347): the `try` block awaits the primary write and
then shows the confirmation; the `catch` block runs `fallbackCopy`. -/
def handleCopy (primary : ClipboardWrite) (text : JSString) : CopyTrace :=
  match primary with
  | ClipboardWrite.fulfilled =>
    { writeText := some text, fallbackCopy := none, execCommand := none, confirmations := 1 }
  | ClipboardWrite.rejected =>
    fallbackCopy text
      { writeText := some text, fallbackCopy := none, execCommand := none, confirmations := 0 }
  | ClipboardWrite.threw =>
    fallbackCopy text
      { writeText := some text, fallbackCopy := none, execCommand := none, confirmations := 0 }
  | ClipboardWrite.unavailable =>
    fallbackCopy text
      { writeText := none, fallbackCopy := none, execCommand := none, confirmations := 0 }

/-- A copy button and its timers: the clock in milliseconds, whether the button
shows the confirmation (check icon and `success` class), and the due times of
the pending `setTimeout` callbacks of `showCopySuccess`. -/
structure CopyButton where
  now : Nat
  success : Bool
  timers : List Nat
deriving DecidableEq, Repr

/-- `showCopySuccess` (lines 349-357): the confirmation is shown and a callback
that reverts the button is scheduled 2000 ms ahead; no pending callback is
cleared. -/
def showCopySuccess (b : CopyButton) : CopyButton :=
  { b with success := true, timers := b.timers ++ [b.now + 2000] }

/-- The event loop up to time `t`: every callback due by then reverts the
button to idle. -/
def CopyButton.advance (b : CopyButton) (t : Nat) : CopyButton :=
  { now := t
    success := b.success && !(b.timers.any fun due => decide (due ≤ t))
    timers := b.timers.filter fun due => !(decide (due ≤ t)) }

/-- A successful copy at time `t`. -/
def CopyButton.copyAt (b : CopyButton) (t : Nat) : CopyButton :=
  showCopySuccess (b.advance t)

/-- A button that has not been used yet. -/
def idleButton : CopyButton := { now := 0, success := false, timers := [] }

/-! ## Clear action -/

/-- The `keydown` listener for `Escape` at time `t` (lines 146-151): the input
is emptied and `handleSearchInput` is called. -/
def escapeKey (b : SearchBox) (t : Nat) : SearchBox :=
  handleSearchInput { runTimersUntil b t with value := [] }

/-- The fields of the library after the `performSearch` invocations `searches`
(pairs of time and input value read), oldest first. -/
def libraryAfter (lower : JSString → JSString) (s : GraphLibrary)
    (searches : List (Nat × JSString)) : GraphLibrary :=
  searches.foldl (fun lib search => (performSearch lower lib search.2).state) s

/-- At most one timer is pending, and `searchTimeout` holds its id. -/
def SingleTimer (b : SearchBox) : Prop :=
  b.timers = [] ∨ ∃ id due, b.searchTimeout = some id ∧ b.timers = [(id, due)]

/-! ## Content loader of the landing page (`src/js/content-loader.js`) -/

/-- The keys of `contentCache` after `loadAllContent` (lines 25-47): a file that
failed to load leaves its key unset.  Of the documents only what decides the
control flow is kept: `downloads` holds the ids of `downloads.platforms`. -/
structure ContentCache where
  siteConfig : Bool
  features : Bool
  tutorials : Bool
  downloads : Option (List JSString)
  links : Bool
deriving DecidableEq, Repr

/-- The sections of the landing page. -/
inductive PageSection where
  | siteConfig
  | features
  | tutorials
  | downloads
deriving DecidableEq, Repr

/-- `populateSiteConfig` (lines 71-128): after setting the document title it
reads `links.external` (line 84), which throws when `links.json` was not
loaded. -/
def populateSiteConfig (cache : ContentCache) : Except JSError Unit :=
  if cache.links then Except.ok () else Except.error JSError.typeError

/-- `populateDownloads` (lines 322-360): the callback of `downloads.platforms.map`
reads `links.downloads` (line 331) for each platform, which throws when
`links.json` was not loaded. -/
def populateDownloads (cache : ContentCache) (platforms : List JSString) : Except JSError Unit :=
  if platforms = [] ∨ cache.links = true then Except.ok () else Except.error JSError.typeError

/-- `ContentLoader.populatePage` (lines 49-69): the sections populated, in order,
and the exception that ended the call, if any. -/
def populatePage (cache : ContentCache) : List PageSection × Option JSError :=
  let afterConfig : List PageSection × Option JSError :=
    if cache.siteConfig then
      match populateSiteConfig cache with
      | Except.ok _ => ([PageSection.siteConfig], none)
      | Except.error e => ([], some e)
    else ([], none)
  match afterConfig.2 with
  | some e => (afterConfig.1, some e)
  | none =>
    let afterFeatures :=
      if cache.features then afterConfig.1 ++ [PageSection.features] else afterConfig.1
    let afterTutorials :=
      if cache.tutorials then afterFeatures ++ [PageSection.tutorials] else afterFeatures
    match cache.downloads with
    | none => (afterTutorials, none)
    | some platforms =>
      match populateDownloads cache platforms with
      | Except.ok _ => (afterTutorials ++ [PageSection.downloads], none)
      | Except.error e => (afterTutorials, some e)

/-! ## Navigation controls -/

/-- The `disabled` flags that `updatePaginationButtons` sets (lines 379-386). -/
structure NavButtons where
  firstDisabled : Bool
  prevDisabled : Bool
  nextDisabled : Bool
  lastDisabled : Bool
deriving DecidableEq, Repr

/-- `updatePaginationButtons` (lines 379-386). -/
def updatePaginationButtons (s : GraphLibrary) : NavButtons :=
  { firstDisabled := s.currentPage == 1
    prevDisabled := s.currentPage == 1
    nextDisabled := s.currentPage == s.totalPages || s.totalPages == 0
    lastDisabled := s.currentPage == s.totalPages || s.totalPages == 0 }

/-- The library page: the fields of the instance and the navigation controls as
last drawn by `updatePagination` (the flags of the four buttons and the
children of `#page-numbers`). -/
structure Page where
  lib : GraphLibrary
  buttons : NavButtons
  pageNumbers : List PageItem
deriving DecidableEq, Repr

/-- The user events of the page: a settled search, a page-size change, a click
on one of the four buttons, a click on the numbered button of a page. -/
inductive UIEvent where
  | search (searchInputValue : JSString)
  | pageSize (pageSize : Int)
  | first
  | prev
  | next
  | last
  | number (page : Int)
deriving DecidableEq, Repr

/-- The controls drawn by `updatePaginationButtons` and `updatePageNumbers`, the
two calls that end `updatePagination` (lines 375-376). -/
def Page.draw (lib : GraphLibrary) : Page :=
  { lib := lib, buttons := updatePaginationButtons lib, pageNumbers := updatePageNumbers lib }

/-- The page with which a click calls `goToPage` (lines 154-157 and 428): `none`
for a disabled button, which receives no click, for a page number that has no
button, and for the events that are not clicks. -/
def Page.target (page : Page) : UIEvent → Option Int
  | UIEvent.first => if page.buttons.firstDisabled then none else some 1
  | UIEvent.prev => if page.buttons.prevDisabled then none else some (page.lib.currentPage - 1)
  | UIEvent.next => if page.buttons.nextDisabled then none else some (page.lib.currentPage + 1)
  | UIEvent.last => if page.buttons.lastDisabled then none else some page.lib.totalPages
  | UIEvent.number p => if p ∈ numberedButtons page.pageNumbers then some p else none
  | UIEvent.search _ => none
  | UIEvent.pageSize _ => none

/-- The method call an event makes, if any. -/
def Page.call (lower : JSString → JSString) (page : Page) (event : UIEvent) : Option Outcome :=
  match event with
  | UIEvent.search searchInputValue => some (performSearch lower page.lib searchInputValue)
  | UIEvent.pageSize pageSize => some (handlePageSizeChange page.lib pageSize)
  | _ => (page.target event).map (goToPage page.lib)

/-- One event: the controls are redrawn only when the call reaches
`updatePagination`; a call that throws leaves them as they were. -/
def Page.step (lower : JSString → JSString) (page : Page) (event : UIEvent) : Page :=
  match page.call lower event with
  | none => page
  | some outcome =>
    match outcome.error with
    | none => Page.draw outcome.state
    | some _ => { page with lib := outcome.state }

/-- The page when `init` has finished (lines 39-46): after `loadGraphData` the
listeners are attached and `updatePagination` runs. -/
def pageAfterInit (loaded : LoadOutcome) : Page :=
  Page.draw (updatePagination loaded.state)

/-- The controls are those `updatePagination` drew for the current fields. -/
def Page.Synced (page : Page) : Prop :=
  updatePagination page.lib = page.lib ∧ page = Page.draw page.lib

/-- A page in step with its fields, on a catalog that respects the data model:
a positive page size, a version in every entry, and a filtered list drawn from
`entries`. -/
def Page.Good (page : Page) : Prop :=
  page.Synced ∧ 0 < page.lib.entriesPerPage ∧
    (∀ e ∈ page.lib.entries, e.versions ≠ []) ∧ page.lib.filteredEntries ⊆ page.lib.entries

/-- The events the page can produce: a page-size change selects a positive
size. -/
def UIEvent.Valid : UIEvent → Prop
  | UIEvent.pageSize size => 0 < size
  | _ => True

/-! ## Concrete inputs -/

/-- A loader-shaped entry (no `graphData` property of its own) with one
version. -/
def loaderEntry (title description : String) (tags : List String) (payload : String) : Entry :=
  { title := utf16 title
    description := utf16 description
    tags := some (tags.map utf16)
    image := none
    versions := [{ version := utf16 "7.1", graphData := utf16 payload }]
    graphData := none }

/-- An entry whose manifest has a `graphData` property of its own, which
`JSON.stringify` renders as `graphDataText`. -/
def manifestEntry (title description : String) (tags : List String)
    (graphDataText payload : String) : Entry :=
  { title := utf16 title
    description := utf16 description
    tags := some (tags.map utf16)
    image := none
    versions := [{ version := utf16 "7.1", graphData := utf16 payload }]
    graphData := some (utf16 graphDataText) }

/-- The state right after loading `es` with page size `n` (lines 126-131):
the constructor's `currentPage = 1` and `totalPages = 1`, the loaded lists, and
the first render. -/
def loaded (es : List Entry) (n : Int) : GraphLibrary :=
  (renderEntries
    { entries := es
      filteredEntries := es
      currentPage := 1
      entriesPerPage := n
      totalPages := 1
      container := [] }).state

/-- A loaded library of three loader-shaped entries, showing page 2 of 2. -/
def blankDemo : GraphLibrary :=
  { entries := [loaderEntry "Scale" "Resize a clip" ["resize"] "scale=1280:720",
      loaderEntry "Crop" "Cut the borders" ["crop"] "crop=640:480",
      loaderEntry "Fade" "Fade in" ["fade"] "fade=in:0:30"]
    filteredEntries := [loaderEntry "Crop" "Cut the borders" ["crop"] "crop=640:480"]
    currentPage := 2
    entriesPerPage := 2
    totalPages := 2
    container := [] }

/-- Three entries whose manifests carry a `graphData` property. -/
def ownEntries : List Entry :=
  [manifestEntry "Scale" "Resize a clip" ["resize"] "\"scale=1280:720\"" "scale=1280:720",
   manifestEntry "Crop" "Cut the borders" ["crop"] "\"crop=640:480\"" "crop=640:480",
   manifestEntry "Pad" "Letterbox" ["border"] "\"scale=640:-1,pad=640:480\"" "pad=640:480"]

/-- The library loaded from `ownEntries`, on page 2 of page size 2. -/
def ownDemo : GraphLibrary :=
  { entries := ownEntries
    filteredEntries := ownEntries
    currentPage := 2
    entriesPerPage := 2
    totalPages := 2
    container := ownEntries.drop 2 }

/-- The state `performSearch` leaves from `ownDemo` for the input `" Scale "`. -/
def ownDemoScale : GraphLibrary :=
  { entries := ownEntries
    filteredEntries :=
      [manifestEntry "Scale" "Resize a clip" ["resize"] "\"scale=1280:720\"" "scale=1280:720",
       manifestEntry "Pad" "Letterbox" ["border"] "\"scale=640:-1,pad=640:480\"" "pad=640:480"]
    currentPage := 1
    entriesPerPage := 2
    totalPages := 1
    container :=
      [manifestEntry "Scale" "Resize a clip" ["resize"] "\"scale=1280:720\"" "scale=1280:720",
       manifestEntry "Pad" "Letterbox" ["border"] "\"scale=640:-1,pad=640:480\"" "pad=640:480"] }

/-- A catalog of one loader-shaped entry whose only version payload contains
`hflip`; neither title, description nor tags do. -/
def payloadCatalog : GraphLibrary :=
  loaded [loaderEntry "Mirror" "Flip the picture" ["flip"] "[0:v]hflip[out]"] 12

/-- A catalog of one loader-shaped entry tagged `h264` and `encode`. -/
def tagCatalog : GraphLibrary :=
  loaded [loaderEntry "Transcode" "Convert a clip" ["h264", "encode"] "[0:v]format=yuv420p[v]"] 12

/-- The entry numbered `i` (below 100) of a synthetic catalog: its title is
`G` followed by the two decimal digits of `i`. -/
def numberedEntry (i : Nat) : Entry :=
  { title := [71, 48 + i / 10, 48 + i % 10]
    description := []
    tags := none
    image := none
    versions := [{ version := utf16 "7.1", graphData := utf16 "null" }]
    graphData := none }

/-- Fifty entries at page size 12, with a stale page number. -/
def fifty : GraphLibrary :=
  { entries := (List.range 50).map numberedEntry
    filteredEntries := (List.range 50).map numberedEntry
    currentPage := 9
    entriesPerPage := 12
    totalPages := 1
    container := [] }

/-- Three entries at page size 2: two pages. -/
def threeOnTwo : GraphLibrary :=
  loaded [numberedEntry 1, numberedEntry 2, numberedEntry 3] 2

/-- A filtered view of seven out of nine entries, page size 3, on page 3. -/
def sevenOnThree : GraphLibrary :=
  { entries := (List.range 9).map numberedEntry
    filteredEntries := (List.range 7).map numberedEntry
    currentPage := 3
    entriesPerPage := 3
    totalPages := 3
    container := [numberedEntry 6] }

/-- Seven entries at page size 12, before `updatePagination`. -/
def sevenOnTwelve : GraphLibrary :=
  loaded ((List.range 7).map numberedEntry) 12

/-- Page 7 of 20. -/
def midBar : GraphLibrary :=
  { entries := [], filteredEntries := [], currentPage := 7, entriesPerPage := 12,
    totalPages := 20, container := [] }

/-- Page 19 of 20. -/
def endBar : GraphLibrary :=
  { entries := [], filteredEntries := [], currentPage := 19, entriesPerPage := 12,
    totalPages := 20, container := [] }

/-- Page 2 of 4. -/
def shortBar : GraphLibrary :=
  { entries := [], filteredEntries := [], currentPage := 2, entriesPerPage := 12,
    totalPages := 4, container := [] }

/-- The manifest of the group `scale`: two versions. -/
def scaleManifest : Manifest :=
  { title := utf16 "Scale"
    description := utf16 "Resize a clip"
    tags := some [utf16 "resize"]
    image := none
    graphData := none
    graphs := [utf16 "7.1", utf16 "6.0"] }

/-- The manifest of the group `crop`: one version. -/
def cropManifest : Manifest :=
  { title := utf16 "Crop"
    description := utf16 "Cut the borders"
    tags := none
    image := some (utf16 "img/crop.png")
    graphData := none
    graphs := [utf16 "7.1"] }

/-- The manifest of a group that lists no version. -/
def bareManifest : Manifest :=
  { title := utf16 "Bare"
    description := utf16 "No version yet"
    tags := none
    image := none
    graphData := none
    graphs := [] }

/-- A site with the groups `scale` and `crop`, every document present. -/
def demoSite : Site :=
  { fetch := fun url =>
      if url = indexUrl then
        FetchResult.response 200 (utf16 "\x7b\"graphs\":[\"scale\",\"crop\"]\x7d")
      else if url = manifestUrl (utf16 "scale") then FetchResult.response 200 (utf16 "scale.json")
      else if url = manifestUrl (utf16 "crop") then FetchResult.response 200 (utf16 "crop.json")
      else if url = payloadUrl (utf16 "scale") (utf16 "7.1") then
        FetchResult.response 200 (utf16 "[0:v]scale=1280:720[out]")
      else if url = payloadUrl (utf16 "scale") (utf16 "6.0") then
        FetchResult.response 200 (utf16 "[0:v]scale=w=1280:h=720[out]")
      else if url = payloadUrl (utf16 "crop") (utf16 "7.1") then
        FetchResult.response 200 (utf16 "[0:v]crop=640:480[out]")
      else FetchResult.response 404 []
    parseIndex := fun body =>
      if body = utf16 "\x7b\"graphs\":[\"scale\",\"crop\"]\x7d" then
        some [utf16 "scale", utf16 "crop"]
      else none
    parseManifest := fun body =>
      if body = utf16 "scale.json" then some scaleManifest
      else if body = utf16 "crop.json" then some cropManifest
      else none }

/-- The manifests of `demoSite` by group name. -/
def demoManifests (name : JSString) : Manifest :=
  if name = utf16 "scale" then scaleManifest else cropManifest

/-- The payload texts of `demoSite` by group name and version. -/
def demoPayloads (name version : JSString) : JSString :=
  if name = utf16 "scale" then
    (if version = utf16 "7.1" then utf16 "[0:v]scale=1280:720[out]"
      else utf16 "[0:v]scale=w=1280:h=720[out]")
  else utf16 "[0:v]crop=640:480[out]"

/-- Fetches completing in index order. -/
def inOrder : Schedule :=
  { groups := [0, 1], versions := fun _ => [0, 1] }

/-- Fetches completing in reverse order: the last group first, and within a
group the last version first. -/
def reversed : Schedule :=
  { groups := [1, 0], versions := fun _ => [1, 0] }

/-- The site `demoSite` with its index document missing. -/
def noIndexSite : Site :=
  { demoSite with
    fetch := fun url =>
      if url = indexUrl then FetchResult.response 404 [] else demoSite.fetch url }

/-- The site `demoSite` with the manifest of `crop` missing. -/
def noCropManifestSite : Site :=
  { demoSite with
    fetch := fun url =>
      if url = manifestUrl (utf16 "crop") then FetchResult.response 404 []
      else demoSite.fetch url }

/-- The site `demoSite` with the payload of version 6.0 of `scale` failing. -/
def noScalePayloadSite : Site :=
  { demoSite with
    fetch := fun url =>
      if url = payloadUrl (utf16 "scale") (utf16 "6.0") then FetchResult.networkError
      else demoSite.fetch url }

/-- A site whose index lists `crop` and `bare`; the manifest of `bare` lists no
version.  Every fetch succeeds. -/
def bareSite : Site :=
  { fetch := fun url =>
      if url = indexUrl then FetchResult.response 200 (utf16 "index")
      else if url = manifestUrl (utf16 "bare") then FetchResult.response 200 (utf16 "bare.json")
      else demoSite.fetch url
    parseIndex := fun body =>
      if body = utf16 "index" then some [utf16 "crop", utf16 "bare"] else none
    parseManifest := fun body =>
      if body = utf16 "bare.json" then some bareManifest else demoSite.parseManifest body }

/-- Three keystrokes 100 ms apart. -/
def threeKeystrokes : List (Nat × JSString) :=
  [(1000, utf16 "h"), (1100, utf16 "h2"), (1200, utf16 "h26")]

/-- The entry loaded for the group `scale` of `demoSite`: versions 7.1 and
6.0. -/
def scaleEntry : Entry := loadedEntry demoManifests demoPayloads (utf16 "scale")

/-- The card of `scaleEntry` as created: the first version is shown. -/
def scaleCard : Card :=
  { entry := scaleEntry
    inputValue := utf16 "[0:v]scale=1280:720[out]"
    listenerText := utf16 "[0:v]scale=1280:720[out]"
    onclickBound := false }

/-- The search box after `" Scale "` was typed at 1000 ms. -/
def typedScale : SearchBox := inputEvent freshSearchBox (1000, utf16 " Scale ")

/-- Every content file loaded except `links.json`. -/
def noLinksCache : ContentCache :=
  { siteConfig := true
    features := true
    tutorials := true
    downloads := some [utf16 "windows", utf16 "linux"]
    links := false }

/-- Only `features.json` and `tutorials.json` loaded. -/
def featuresOnlyCache : ContentCache :=
  { siteConfig := false, features := true, tutorials := true, downloads := none, links := false }

/-- Thirteen group names: `g00` to `g11`, then `bare`. -/
def bigNames : List JSString :=
  (List.range 12).map (fun i => [103, 48 + i / 10, 48 + i % 10]) ++ [utf16 "bare"]

/-- A site with the thirteen groups of `bigNames`: twelve with one version each
and, last, `bare` with none.  Every fetch succeeds. -/
def bigSite : Site :=
  { fetch := fun url =>
      if url = indexUrl then FetchResult.response 200 (utf16 "big")
      else if url = manifestUrl (utf16 "bare") then FetchResult.response 200 (utf16 "bare.json")
      else if url ∈ bigNames.map manifestUrl then FetchResult.response 200 (utf16 "crop.json")
      else FetchResult.response 200 (utf16 "[0:v]crop=640:480[out]")
    parseIndex := fun body => if body = utf16 "big" then some bigNames else none
    parseManifest := bareSite.parseManifest }

/-- Thirteen groups settling in index order. -/
def bigOrder : Schedule :=
  { groups := List.range 13, versions := fun _ => [0] }

/-- The page after `init` on `bigSite` with the default page size 12. -/
def bigPage : Page := pageAfterInit (loadGraphData constructed bigSite 12 bigOrder)

/-! ## Lemmas on the string and array primitives -/

theorem includes_iff_infix (s q : JSString) : includes s q = true ↔ q <:+: s := by
  unfold includes
  rw [List.any_eq_true]
  constructor
  · rintro ⟨t, ht, hp⟩
    have hsuf : t <:+ s := (List.mem_tails t s).1 ht
    have hpre : q <+: t := List.isPrefixOf_iff_prefix.1 hp
    exact hpre.isInfix.trans hsuf.isInfix
  · rintro ⟨a, b, hab⟩
    refine ⟨q ++ b, (List.mem_tails _ _).2 ⟨a, by simpa using hab⟩, ?_⟩
    exact List.isPrefixOf_iff_prefix.2 (List.prefix_append q b)

theorem trim_of_isBlank {s : JSString} (h : isBlank s = true) : trim s = [] := by
  have hall : ∀ c ∈ s, isWhiteSpace c = true := by
    simpa [isBlank, List.all_eq_true] using h
  have hdrop : s.dropWhile isWhiteSpace = [] := List.dropWhile_eq_nil_iff.2 hall
  simp [trim, hdrop]

theorem asciiLower_isBlank (q : JSString) (h : isBlank q = true) :
    isBlank (asciiLower q) = true := by
  have hall : ∀ c ∈ q, isWhiteSpace c = true := by
    simpa [isBlank, List.all_eq_true] using h
  have hfix : ∀ c ∈ q, (if 65 ≤ c ∧ c ≤ 90 then c + 32 else c) = c := by
    intro c hc
    have hw := hall c hc
    by_cases hr : 65 ≤ c ∧ c ≤ 90
    · exfalso
      obtain ⟨h1, h2⟩ := hr
      interval_cases c <;> simp [isWhiteSpace] at hw
    · simp [hr]
  have hmap : asciiLower q = q := by
    unfold asciiLower
    conv_rhs => rw [← List.map_id q]
    exact List.map_congr_left fun c hc => by simpa using hfix c hc
  rw [hmap]; exact h

theorem filterE_sublist {α : Type} (p : α → Except JSError Bool) :
    ∀ (xs ys : List α), filterE p xs = Except.ok ys → ys.Sublist xs
  | [], ys, h => by
    simp only [filterE, Except.ok.injEq] at h
    subst h; exact List.Sublist.refl _
  | x :: xs, ys, h => by
    unfold filterE at h
    cases hp : p x with
    | error e => rw [hp] at h; simp at h
    | ok b =>
      rw [hp] at h
      cases hr : filterE p xs with
      | error e => rw [hr] at h; simp at h
      | ok zs =>
        rw [hr] at h
        simp only [Except.ok.injEq] at h
        have ih := filterE_sublist p xs zs hr
        subst h
        cases b with
        | true => simpa using ih
        | false => simpa using ih.trans (List.sublist_cons_self x xs)

theorem filterE_eq_filter {α : Type} (p : α → Except JSError Bool) (f : α → Bool) :
    ∀ (xs : List α), (∀ x ∈ xs, p x = Except.ok (f x)) →
      filterE p xs = Except.ok (xs.filter f)
  | [], _ => rfl
  | x :: xs, h => by
    have hx : p x = Except.ok (f x) := h x (List.mem_cons_self x xs)
    have ih := filterE_eq_filter p f xs fun y hy => h y (List.mem_cons_of_mem x hy)
    unfold filterE
    rw [hx, ih]
    cases hf : f x <;> simp [List.filter, hf]

theorem entryMatches_of_graphData (lower : JSString → JSString) (query : JSString)
    (entry : Entry) (h : entry.graphData ≠ none) :
    entryMatches lower query entry = Except.ok (matchesOwn lower query entry) := by
  unfold entryMatches matchesOwn
  cases hg : entry.graphData with
  | none => exact absurd hg h
  | some text => rfl

theorem entryMatches_of_no_graphData (lower : JSString → JSString) (query : JSString)
    (entry : Entry) (h : entry.graphData = none) :
    entryMatches lower query entry = Except.error JSError.typeError := by
  unfold entryMatches
  rw [h]

theorem appendCards_of_versions :
    ∀ (xs : List Entry), (∀ e ∈ xs, e.versions ≠ []) → appendCards xs = (xs, none)
  | [], _ => rfl
  | x :: xs, h => by
    have hx : x.versions ≠ [] := h x (List.mem_cons_self x xs)
    have ih := appendCards_of_versions xs fun e he => h e (List.mem_cons_of_mem x he)
    unfold appendCards createEntryElement createGraphInputContainer
    cases hv : x.versions with
    | nil => exact absurd hv hx
    | cons v vs => simp only [ih]

theorem appendCards_returns :
    ∀ (xs : List Entry), (appendCards xs).2 = none → (appendCards xs).1 = xs
  | [], _ => rfl
  | x :: xs, h => by
    unfold appendCards at h ⊢
    cases hc : createEntryElement x with
    | error e => rw [hc] at h; simp at h
    | ok card =>
      rw [hc] at h
      simp only at h ⊢
      rw [appendCards_returns xs h]

theorem mem_of_mem_slice {α : Type} (xs : List α) (a b : Int) (x : α)
    (h : x ∈ slice xs a b) : x ∈ xs :=
  List.mem_of_mem_drop (List.mem_of_mem_take h)

theorem renderEntries_returns (s : GraphLibrary)
    (h : ∀ e ∈ s.filteredEntries, e.versions ≠ []) :
    renderEntries s = { state := { s with container := getCurrentPageEntries s }, error := none } := by
  have hwin : ∀ e ∈ getCurrentPageEntries s, e.versions ≠ [] :=
    fun e he => h e (mem_of_mem_slice _ _ _ e he)
  unfold renderEntries
  simp only [appendCards_of_versions _ hwin]

theorem renderEntries_container_of_returns (s : GraphLibrary)
    (h : (renderEntries s).error = none) :
    (renderEntries s).state.container = getCurrentPageEntries s :=
  appendCards_returns _ h

theorem next_error (r : Outcome) (f : GraphLibrary → GraphLibrary) :
    (r.next f).error = r.error := by
  unfold Outcome.next
  cases h : r.error <;> simp [h]

theorem next_state_of_returns (r : Outcome) (f : GraphLibrary → GraphLibrary)
    (h : r.error = none) : (r.next f).state = f r.state := by
  unfold Outcome.next
  simp [h]

theorem next_state_of_throws (r : Outcome) (f : GraphLibrary → GraphLibrary)
    (h : r.error ≠ none) : (r.next f).state = r.state := by
  unfold Outcome.next
  cases hr : r.error with
  | none => exact absurd hr h
  | some e => rfl

/-- After `currentPage = 1`, `renderEntries` and `updatePagination` (if it is
reached) the page is still 1. -/
theorem render_then_paginate_page_one (s : GraphLibrary) (h : s.currentPage = 1) :
    ((renderEntries s).next updatePagination).state.currentPage = 1 := by
  by_cases hr : (renderEntries s).error = none
  · rw [next_state_of_returns _ _ hr]
    show max 1 (min (renderEntries s).state.currentPage _) = (1 : Int)
    have : (renderEntries s).state.currentPage = 1 := h
    rw [this]; omega
  · rw [next_state_of_throws _ _ hr]
    exact h

theorem performSearch_of_filter_ok (lower : JSString → JSString) (s : GraphLibrary)
    (input : JSString) (es : List Entry)
    (h : (if trim (lower input) = [] then Except.ok s.entries
      else filterE (entryMatches lower (trim (lower input))) s.entries) = Except.ok es) :
    performSearch lower s input
      = (renderEntries { s with filteredEntries := es, currentPage := 1 }).next
          updatePagination := by
  unfold performSearch
  simp only [h]

theorem performSearch_of_filter_error (lower : JSString → JSString) (s : GraphLibrary)
    (input : JSString) (e : JSError)
    (h : (if trim (lower input) = [] then Except.ok s.entries
      else filterE (entryMatches lower (trim (lower input))) s.entries) = Except.error e) :
    performSearch lower s input = { state := s, error := some e } := by
  unfold performSearch
  simp only [h]

/-- The filter step of `performSearch` completes for a blank query and
whenever every entry has a `graphData` property; its result is a sublist of
`entries`. -/
theorem search_filter_completes (lower : JSString → JSString) (s : GraphLibrary)
    (input : JSString)
    (h : trim (lower input) = [] ∨ ∀ e ∈ s.entries, e.graphData ≠ none) :
    ∃ es, (if trim (lower input) = [] then Except.ok s.entries
      else filterE (entryMatches lower (trim (lower input))) s.entries) = Except.ok es := by
  by_cases hquery : trim (lower input) = []
  · exact ⟨s.entries, by simp only [hquery, if_true]⟩
  · have hall := h.resolve_left hquery
    have hfil := filterE_eq_filter (entryMatches lower (trim (lower input)))
      (matchesOwn lower (trim (lower input))) s.entries
      fun e he => entryMatches_of_graphData lower _ e (hall e he)
    refine ⟨s.entries.filter (matchesOwn lower (trim (lower input))), ?_⟩
    simp only [hquery, if_false, hfil]

theorem search_filter_sublist (lower : JSString → JSString) (s : GraphLibrary)
    (input : JSString) (es : List Entry)
    (h : (if trim (lower input) = [] then Except.ok s.entries
      else filterE (entryMatches lower (trim (lower input))) s.entries) = Except.ok es) :
    es.Sublist s.entries := by
  split at h
  · simp only [Except.ok.injEq] at h
    rw [← h]
  · exact filterE_sublist _ _ _ h

/-- The fields `performSearch` leaves when its filter step produced `es`. -/
theorem performSearch_state_of_filter_ok (lower : JSString → JSString) (s : GraphLibrary)
    (input : JSString) (es : List Entry)
    (h : (if trim (lower input) = [] then Except.ok s.entries
      else filterE (entryMatches lower (trim (lower input))) s.entries) = Except.ok es) :
    (performSearch lower s input).state.filteredEntries = es ∧
    (performSearch lower s input).state.currentPage = 1 ∧
    (performSearch lower s input).state.entries = s.entries ∧
    ((∀ e ∈ s.entries, e.versions ≠ []) → (performSearch lower s input).error = none) := by
  rw [performSearch_of_filter_ok lower s input es h]
  have hsub := search_filter_sublist lower s input es h
  refine ⟨?_, render_then_paginate_page_one _ rfl, ?_, ?_⟩
  · by_cases hr : (renderEntries { s with filteredEntries := es, currentPage := 1 }).error = none
    · rw [next_state_of_returns _ _ hr]; rfl
    · rw [next_state_of_throws _ _ hr]; rfl
  · by_cases hr : (renderEntries { s with filteredEntries := es, currentPage := 1 }).error = none
    · rw [next_state_of_returns _ _ hr]; rfl
    · rw [next_state_of_throws _ _ hr]; rfl
  · intro hv
    rw [next_error, renderEntries_returns _ fun e he => hv e (hsub.subset he)]

theorem slice_window {α : Type} (xs : List α) (a n : Nat) :
    slice xs (a : Int) ((a : Int) + (n : Int)) = (xs.drop a).take n := by
  simp only [slice]
  rw [if_neg (by omega), if_neg (by omega)]
  by_cases h : a ≤ xs.length
  · have hk : (min (a : Int) (xs.length : Int)).toNat = a := by omega
    have hf : (min ((a : Int) + (n : Int)) (xs.length : Int) - min (a : Int) (xs.length : Int)).toNat
        = min n (xs.length - a) := by omega
    rw [hk, hf, List.take_eq_take, List.length_drop]
    omega
  · have hk : (min (a : Int) (xs.length : Int)).toNat = xs.length := by omega
    rw [hk, List.drop_of_length_le (le_refl _), List.drop_of_length_le (by omega)]
    simp

theorem ceilDiv_bounds (a b : Int) (hb : 0 < b) :
    a ≤ b * ceilDiv a b ∧ b * ceilDiv a b - b < a := by
  unfold ceilDiv
  have h1 := Int.ediv_add_emod (a + b - 1) b
  have h2 := Int.emod_nonneg (a + b - 1) (ne_of_gt hb)
  have h3 := Int.emod_lt_of_pos (a + b - 1) hb
  constructor <;> omega

theorem ceilDiv_nonneg (a b : Int) (ha : 0 ≤ a) (hb : 0 < b) : 0 ≤ ceilDiv a b := by
  unfold ceilDiv
  exact Int.ediv_nonneg (by omega) (le_of_lt hb)

theorem ceilDiv_eq_ceil (a b : Int) (hb : 0 < b) :
    ceilDiv a b = ⌈(a : ℚ) / (b : ℚ)⌉ := by
  obtain ⟨h1, h2⟩ := ceilDiv_bounds a b hb
  have hbq : (0 : ℚ) < (b : ℚ) := by exact_mod_cast hb
  symm
  rw [Int.ceil_eq_iff]
  constructor
  · rw [lt_div_iff₀ hbq]
    have : ((b * ceilDiv a b - b : Int) : ℚ) < (a : ℚ) := by exact_mod_cast h2
    push_cast at this
    linarith
  · rw [div_le_iff₀ hbq]
    have : ((a : Int) : ℚ) ≤ ((b * ceilDiv a b : Int) : ℚ) := by exact_mod_cast h1
    push_cast at this
    linarith

theorem ceilDiv_eq_zero_iff (a b : Int) (ha : 0 ≤ a) (hb : 0 < b) : ceilDiv a b = 0 ↔ a = 0 := by
  obtain ⟨h1, h2⟩ := ceilDiv_bounds a b hb
  constructor
  · intro h
    rw [h] at h1
    omega
  · intro h
    subst h
    unfold ceilDiv
    exact Int.ediv_eq_zero_of_lt (by omega) (by omega)

theorem ceilDiv_mul (b k : Int) (hb : 0 < b) : ceilDiv (b * k) b = k := by
  unfold ceilDiv
  have : b * k + b - 1 = (b - 1) + b * k := by ring
  rw [this, Int.add_mul_ediv_left _ _ (ne_of_gt hb), Int.ediv_eq_zero_of_lt (by omega) (by omega)]
  simp

theorem sum_window_lengths (len ps : Nat) :
    ∀ n : Nat, ((List.range n).map fun i => min ps (len - i * ps)).sum = min len (n * ps)
  | 0 => by simp
  | n + 1 => by
    rw [List.sum_range_succ, sum_window_lengths len ps n, Nat.succ_mul]
    omega

theorem filterE_throws {α : Type} (p : α → Except JSError Bool) :
    ∀ (xs : List α), (∃ x ∈ xs, p x = Except.error JSError.typeError) →
      filterE p xs = Except.error JSError.typeError
  | [], h => by
    obtain ⟨x, hx, _⟩ := h
    simp at hx
  | x :: xs, h => by
    unfold filterE
    cases hp : p x with
    | error e => cases e; rfl
    | ok b =>
      have hrest : ∃ y ∈ xs, p y = Except.error JSError.typeError := by
        obtain ⟨y, hy, hpy⟩ := h
        rcases List.mem_cons.1 hy with rfl | hmem
        · rw [hp] at hpy; simp at hpy
        · exact ⟨y, hmem, hpy⟩
      simp only [filterE_throws p xs hrest]

/-- A non-blank query throws as soon as one entry has no `graphData` property
of its own, whatever the other fields hold. -/
theorem performSearch_throws_of_no_graphData (lower : JSString → JSString) (s : GraphLibrary)
    (input : JSString) (hquery : trim (lower input) ≠ [])
    (hmissing : ∃ e ∈ s.entries, e.graphData = none) :
    performSearch lower s input = { state := s, error := some JSError.typeError } := by
  obtain ⟨e, he, hnone⟩ := hmissing
  have hfil := filterE_throws (entryMatches lower (trim (lower input))) s.entries
    ⟨e, he, entryMatches_of_no_graphData lower _ e hnone⟩
  exact performSearch_of_filter_error lower s input _ (by simp only [hquery, if_false, hfil])

/-! ## Search: settled claims -/

/-- C1: for every entries list and every query that is empty or consists only
of white space, `performSearch` sets `filteredEntries` to a list equal to
`entries` (same elements, same order, same length).  The case mapping is any
function that keeps blank strings blank, as `toLowerCase` does. -/
theorem performSearch_blank_query (lower : JSString → JSString)
    (hlower : ∀ q, isBlank q = true → isBlank (lower q) = true)
    (s : GraphLibrary) (input : JSString) (hq : isBlank input = true) :
    (performSearch lower s input).state.filteredEntries = s.entries ∧
    (performSearch lower s input).state.filteredEntries.length = s.entries.length := by
  have hquery : trim (lower input) = [] := trim_of_isBlank (hlower input hq)
  have hfil : (if trim (lower input) = [] then Except.ok s.entries
      else filterE (entryMatches lower (trim (lower input))) s.entries)
        = Except.ok s.entries := by
    simp only [hquery, if_true]
  have hst := (performSearch_state_of_filter_ok lower s input s.entries hfil).1
  exact ⟨hst, by rw [hst]⟩

theorem performSearch_blank_query_witness :
    (performSearch asciiLower blankDemo (utf16 "  \t ")).error = none ∧
    (performSearch asciiLower blankDemo (utf16 "  \t ")).state.filteredEntries
      = blankDemo.entries ∧
    (performSearch asciiLower blankDemo (utf16 "  \t ")).state.filteredEntries.length
      = blankDemo.entries.length :=
  ⟨by decide,
    performSearch_blank_query asciiLower asciiLower_isBlank blankDemo (utf16 "  \t ")
      (by decide)⟩

/-- C2: for every entries list and every query, the `filteredEntries` that
`performSearch` produces is a sublist of `entries`: each of its elements is an
element of `entries` and the relative order is that of `entries`.  This holds
whenever the call returns, and whenever every entry has a `graphData` property
(the filter callback then cannot throw); the call returns whenever every entry
has a `graphData` property and a version. -/
theorem performSearch_sublist (lower : JSString → JSString) (s : GraphLibrary)
    (input : JSString) :
    (((performSearch lower s input).error = none ∨ ∀ e ∈ s.entries, e.graphData ≠ none) →
      (performSearch lower s input).state.filteredEntries.Sublist s.entries ∧
      ∀ e ∈ (performSearch lower s input).state.filteredEntries, e ∈ s.entries) ∧
    ((∀ e ∈ s.entries, e.graphData ≠ none ∧ e.versions ≠ []) →
      (performSearch lower s input).error = none) := by
  have hok : ∀ es, (if trim (lower input) = [] then Except.ok s.entries
      else filterE (entryMatches lower (trim (lower input))) s.entries) = Except.ok es →
      (performSearch lower s input).state.filteredEntries.Sublist s.entries := by
    intro es hes
    rw [(performSearch_state_of_filter_ok lower s input es hes).1]
    exact search_filter_sublist lower s input es hes
  constructor
  · intro h
    have hsub : (performSearch lower s input).state.filteredEntries.Sublist s.entries := by
      cases hf : (if trim (lower input) = [] then Except.ok s.entries
          else filterE (entryMatches lower (trim (lower input))) s.entries) with
      | ok es => exact hok es hf
      | error e =>
        rcases h with hret | hall
        · rw [performSearch_of_filter_error lower s input e hf] at hret
          simp at hret
        · obtain ⟨es, hes⟩ := search_filter_completes lower s input (Or.inr hall)
          rw [hes] at hf
          simp at hf
    exact ⟨hsub, fun e he => hsub.subset he⟩
  · intro hall
    obtain ⟨es, hes⟩ := search_filter_completes lower s input
      (Or.inr fun e he => (hall e he).1)
    exact (performSearch_state_of_filter_ok lower s input es hes).2.2.2
      fun e he => (hall e he).2

theorem performSearch_sublist_witness :
    performSearch asciiLower ownDemo (utf16 " Scale ")
      = { state := ownDemoScale, error := none } ∧
    (performSearch asciiLower ownDemo (utf16 " Scale ")).state.filteredEntries.Sublist
      ownDemo.entries ∧
    ∀ e ∈ (performSearch asciiLower ownDemo (utf16 " Scale ")).state.filteredEntries,
      e ∈ ownDemo.entries :=
  ⟨by decide,
    (performSearch_sublist asciiLower ownDemo (utf16 " Scale ")).1 (Or.inl (by decide))⟩

/-- C3 (the code departs from the claim): the only version payload of the
entry of `payloadCatalog` contains the query `hflip`, so the claim keeps the
entry; `performSearch` reads `entry.graphData`, which the loader never sets,
and throws a `TypeError` instead of producing a filtered list. -/
theorem performSearch_payload_query_throws :
    (∀ e ∈ payloadCatalog.entries, ∃ v ∈ e.versions,
      includes (asciiLower v.graphData) (trim (asciiLower (utf16 "hflip"))) = true) ∧
    performSearch asciiLower payloadCatalog (utf16 "hflip")
      = { state := payloadCatalog, error := some JSError.typeError } := by
  decide

/-- C4 (the code departs from the claim): the entry of `tagCatalog` has the
tags `h264` and `encode` and no `graphData` property of its own; for the query
`h264` the claim includes it, while `performSearch` throws a `TypeError` at
the `JSON.stringify(entry.graphData).toLowerCase()` call and includes
nothing. -/
theorem performSearch_tag_query_throws :
    (∀ e ∈ tagCatalog.entries, e.graphData = none ∧ ∃ tags, e.tags = some tags ∧
      tags.any (fun tag => includes (asciiLower tag) (trim (asciiLower (utf16 "h264")))) = true) ∧
    performSearch asciiLower tagCatalog (utf16 "h264")
      = { state := tagCatalog, error := some JSError.typeError } := by
  decide

/-! ## Pagination: supporting lemmas -/

theorem getCurrentPageEntries_page (s : GraphLibrary) (ps i : Nat)
    (h : s.entriesPerPage = (ps : Int)) :
    getCurrentPageEntries { s with currentPage := (i : Int) + 1 }
      = (s.filteredEntries.drop (i * ps)).take ps := by
  unfold getCurrentPageEntries
  simp only [h]
  have hstart : ((i : Int) + 1 - 1) * (ps : Int) = ((i * ps : Nat) : Int) := by
    push_cast; ring
  rw [hstart]
  exact slice_window s.filteredEntries (i * ps) ps

theorem totalPages_covers (len ps : Nat) (hps : 0 < ps) :
    len ≤ (ceilDiv (len : Int) (ps : Int)).toNat * ps ∧
      ((ceilDiv (len : Int) (ps : Int)).toNat : Int) = ceilDiv (len : Int) (ps : Int) ∧
      (0 < len → (ceilDiv (len : Int) (ps : Int)).toNat * ps < len + ps) := by
  have hb : (0 : Int) < (ps : Int) := by exact_mod_cast hps
  obtain ⟨h1, h2⟩ := ceilDiv_bounds (len : Int) (ps : Int) hb
  have h0 := ceilDiv_nonneg (len : Int) (ps : Int) (Int.ofNat_nonneg len) hb
  have hcast : ((ceilDiv (len : Int) (ps : Int)).toNat : Int) = ceilDiv (len : Int) (ps : Int) :=
    Int.toNat_of_nonneg h0
  have hmul : (((ceilDiv (len : Int) (ps : Int)).toNat * ps : Nat) : Int)
      = (ps : Int) * ceilDiv (len : Int) (ps : Int) := by
    push_cast; rw [hcast]; ring
  refine ⟨?_, hcast, ?_⟩
  · have : ((len : Nat) : Int) ≤ (((ceilDiv (len : Int) (ps : Int)).toNat * ps : Nat) : Int) := by
      rw [hmul]; exact h1
    exact_mod_cast this
  · intro _
    have : (((ceilDiv (len : Int) (ps : Int)).toNat * ps : Nat) : Int) < ((len + ps : Nat) : Int) := by
      rw [hmul]; push_cast; omega
    exact_mod_cast this

/-- `goToPage` and `handlePageSizeChange` return whenever every filtered entry
has a version. -/
theorem goToPage_returns (s : GraphLibrary) (p : Int)
    (h : ∀ e ∈ s.filteredEntries, e.versions ≠ []) : (goToPage s p).error = none := by
  unfold goToPage
  rw [next_error, renderEntries_returns { s with currentPage := p } h]

theorem handlePageSizeChange_returns (s : GraphLibrary) (pageSize : Int)
    (h : ∀ e ∈ s.filteredEntries, e.versions ≠ []) :
    (handlePageSizeChange s pageSize).error = none := by
  unfold handlePageSizeChange
  rw [next_error,
    renderEntries_returns { s with entriesPerPage := pageSize, currentPage := 1 } h]

/-! ## Pagination: settled claims -/

/-- C5 (counterexample to the claim as stated): with three entries on pages of
two, `goToPage(5)` returns having rendered the window of the requested page 5,
which is empty, while the clamped page that `currentPage` holds on return is
2, whose slice holds the third entry; `goToPage(0)` likewise renders nothing
although the clamped page 1 has two entries. -/
theorem goToPage_out_of_range_renders_unclamped :
    (goToPage threeOnTwo 5).error = none ∧
    (goToPage threeOnTwo 5).state.currentPage
      = clamp 5 1 (max (goToPage threeOnTwo 5).state.totalPages 1) ∧
    (goToPage threeOnTwo 5).state.container ≠
      slice (goToPage threeOnTwo 5).state.filteredEntries
        (((goToPage threeOnTwo 5).state.currentPage - 1)
          * (goToPage threeOnTwo 5).state.entriesPerPage)
        ((goToPage threeOnTwo 5).state.currentPage
          * (goToPage threeOnTwo 5).state.entriesPerPage) ∧
    (goToPage threeOnTwo 0).error = none ∧
    (goToPage threeOnTwo 0).state.currentPage
      = clamp 0 1 (max (goToPage threeOnTwo 0).state.totalPages 1) ∧
    (goToPage threeOnTwo 0).state.container ≠
      slice (goToPage threeOnTwo 0).state.filteredEntries
        (((goToPage threeOnTwo 0).state.currentPage - 1)
          * (goToPage threeOnTwo 0).state.entriesPerPage)
        ((goToPage threeOnTwo 0).state.currentPage
          * (goToPage threeOnTwo 0).state.entriesPerPage) := by
  decide

/-- C5 (amended): for every page `p` with `1 ≤ p ≤ max(totalPages, 1)`
requested through `goToPage`, when `goToPage` returns the page that
`currentPage` holds is `clamp(p, 1, max(totalPages, 1)) = p`, and the entries
rendered for the request are exactly the half-open slice
`filteredEntries[(c-1)*pageSize : c*pageSize]` at that page `c`. -/
theorem goToPage_renders_clamped_page (s : GraphLibrary) (p : Int)
    (hps : 0 < s.entriesPerPage) (hret : (goToPage s p).error = none) (hlo : 1 ≤ p)
    (hhi : p ≤ max (goToPage s p).state.totalPages 1) :
    0 ≤ (goToPage s p).state.totalPages ∧
    (goToPage s p).state.currentPage
      = clamp p 1 (max (goToPage s p).state.totalPages 1) ∧
    (goToPage s p).state.currentPage = p ∧
    (goToPage s p).state.container =
      slice (goToPage s p).state.filteredEntries
        (((goToPage s p).state.currentPage - 1) * (goToPage s p).state.entriesPerPage)
        ((goToPage s p).state.currentPage * (goToPage s p).state.entriesPerPage) := by
  have hrender : (renderEntries { s with currentPage := p }).error = none := by
    have := hret
    unfold goToPage at this
    rwa [next_error] at this
  have hstate : (goToPage s p).state
      = updatePagination (renderEntries { s with currentPage := p }).state := by
    unfold goToPage
    exact next_state_of_returns _ _ hrender
  have hcont := renderEntries_container_of_returns _ hrender
  rw [hstate] at hhi ⊢
  have htp : (updatePagination (renderEntries { s with currentPage := p }).state).totalPages
      = ceilDiv s.filteredEntries.length s.entriesPerPage := rfl
  have hcp : (updatePagination (renderEntries { s with currentPage := p }).state).currentPage
      = max 1 (min p (ceilDiv s.filteredEntries.length s.entriesPerPage)) := rfl
  have hc : (updatePagination (renderEntries { s with currentPage := p }).state).container
      = slice s.filteredEntries ((p - 1) * s.entriesPerPage)
          ((p - 1) * s.entriesPerPage + s.entriesPerPage) := hcont
  have hf : (updatePagination (renderEntries { s with currentPage := p }).state).filteredEntries
      = s.filteredEntries := rfl
  have he : (updatePagination (renderEntries { s with currentPage := p }).state).entriesPerPage
      = s.entriesPerPage := rfl
  rw [htp] at hhi
  have hp : (updatePagination (renderEntries { s with currentPage := p }).state).currentPage
      = p := by rw [hcp]; omega
  refine ⟨?_, ?_, hp, ?_⟩
  · rw [htp]; exact ceilDiv_nonneg _ _ (Int.ofNat_nonneg _) hps
  · rw [hcp, htp]; unfold clamp; omega
  · rw [hc, hf, he, hp]
    congr 1
    ring

theorem goToPage_renders_clamped_page_witness :
    0 ≤ (goToPage sevenOnThree 2).state.totalPages ∧
    (goToPage sevenOnThree 2).state.currentPage
      = clamp 2 1 (max (goToPage sevenOnThree 2).state.totalPages 1) ∧
    (goToPage sevenOnThree 2).state.currentPage = 2 ∧
    (goToPage sevenOnThree 2).state.container =
      slice (goToPage sevenOnThree 2).state.filteredEntries
        (((goToPage sevenOnThree 2).state.currentPage - 1)
          * (goToPage sevenOnThree 2).state.entriesPerPage)
        ((goToPage sevenOnThree 2).state.currentPage
          * (goToPage sevenOnThree 2).state.entriesPerPage) :=
  goToPage_renders_clamped_page sevenOnThree 2 (by decide) (by decide) (by decide) (by decide)

/-- C6: for every `filteredEntries` and every positive integer
`entriesPerPage`, `updatePagination` sets `totalPages` to the ceiling of the
rational quotient `filteredEntries.length / entriesPerPage`, and that is 0
exactly when `filteredEntries` is empty. -/
theorem updatePagination_totalPages (s : GraphLibrary) (hps : 0 < s.entriesPerPage) :
    (updatePagination s).totalPages
      = ⌈((s.filteredEntries.length : Int) : ℚ) / ((s.entriesPerPage : Int) : ℚ)⌉ ∧
    ((updatePagination s).totalPages = 0 ↔ s.filteredEntries = []) := by
  have htp : (updatePagination s).totalPages
      = ceilDiv s.filteredEntries.length s.entriesPerPage := rfl
  rw [htp]
  refine ⟨ceilDiv_eq_ceil _ _ hps, ?_⟩
  rw [ceilDiv_eq_zero_iff _ _ (Int.ofNat_nonneg _) hps]
  constructor
  · intro h
    exact List.length_eq_zero.1 (by exact_mod_cast h)
  · intro h
    rw [h]; rfl

theorem updatePagination_totalPages_witness :
    (updatePagination fifty).totalPages = 5 ∧
    (updatePagination fifty).totalPages
      = ⌈((fifty.filteredEntries.length : Int) : ℚ) / ((fifty.entriesPerPage : Int) : ℚ)⌉ ∧
    ((updatePagination fifty).totalPages = 0 ↔ fifty.filteredEntries = []) :=
  ⟨by decide, updatePagination_totalPages fifty (by decide)⟩

/-- C7: for every integer `currentPage` before the call (and every positive
page size, so that `totalPages ≥ 0`), `updatePagination` leaves `currentPage`
equal to `clamp(currentPage, 1, max(totalPages, 1))`: never below 1, never
above `totalPages` when `totalPages ≥ 1`, and 1 when there are no entries. -/
theorem updatePagination_currentPage (s : GraphLibrary) (hps : 0 < s.entriesPerPage) :
    0 ≤ (updatePagination s).totalPages ∧
    (updatePagination s).currentPage
      = clamp s.currentPage 1 (max (updatePagination s).totalPages 1) ∧
    1 ≤ (updatePagination s).currentPage ∧
    (1 ≤ (updatePagination s).totalPages →
      (updatePagination s).currentPage ≤ (updatePagination s).totalPages) ∧
    (s.filteredEntries = [] → (updatePagination s).currentPage = 1) := by
  have htp : (updatePagination s).totalPages
      = ceilDiv s.filteredEntries.length s.entriesPerPage := rfl
  have hcp : (updatePagination s).currentPage
      = max 1 (min s.currentPage (ceilDiv s.filteredEntries.length s.entriesPerPage)) := rfl
  have h0 := ceilDiv_nonneg _ _ (Int.ofNat_nonneg s.filteredEntries.length) hps
  rw [htp, hcp]
  unfold clamp
  refine ⟨h0, by omega, by omega, by omega, ?_⟩
  intro hnil
  have hz : ceilDiv s.filteredEntries.length s.entriesPerPage = 0 := by
    rw [ceilDiv_eq_zero_iff _ _ (Int.ofNat_nonneg _) hps, hnil]; rfl
  rw [hz]; omega

theorem updatePagination_currentPage_witness :
    (updatePagination fifty).currentPage = 5 ∧
    0 ≤ (updatePagination fifty).totalPages ∧
    (updatePagination fifty).currentPage
      = clamp fifty.currentPage 1 (max (updatePagination fifty).totalPages 1) ∧
    1 ≤ (updatePagination fifty).currentPage ∧
    (1 ≤ (updatePagination fifty).totalPages →
      (updatePagination fifty).currentPage ≤ (updatePagination fifty).totalPages) ∧
    (fifty.filteredEntries = [] → (updatePagination fifty).currentPage = 1) :=
  ⟨by decide, updatePagination_currentPage fifty (by decide)⟩

/-- C8: for every `filteredEntries` and every page size above 0, the lengths
of the windows that `getCurrentPageEntries` returns at `currentPage = p`, summed
over the pages `p = 1 .. totalPages`, give `filteredEntries.length`. -/
theorem window_lengths_sum (s : GraphLibrary) (hps : 0 < s.entriesPerPage) :
    ((List.range (updatePagination s).totalPages.toNat).map fun (i : Nat) =>
        (getCurrentPageEntries { s with currentPage := (i : Int) + 1 }).length).sum
      = s.filteredEntries.length := by
  obtain ⟨ps, hpsEq⟩ := Int.eq_ofNat_of_zero_le (le_of_lt hps)
  have hpos : 0 < ps := by
    have : (0 : Int) < (ps : Int) := hpsEq ▸ hps
    exact_mod_cast this
  have htp : (updatePagination s).totalPages
      = ceilDiv (s.filteredEntries.length : Int) (ps : Int) := by
    show ceilDiv _ s.entriesPerPage = _
    rw [hpsEq]
  have hlen : ∀ i : Nat,
      (getCurrentPageEntries { s with currentPage := (i : Int) + 1 }).length
        = min ps (s.filteredEntries.length - i * ps) := by
    intro i
    rw [getCurrentPageEntries_page s ps i hpsEq, List.length_take, List.length_drop]
  have hfun : (fun i : Nat =>
      (getCurrentPageEntries { s with currentPage := (i : Int) + 1 }).length)
        = fun i : Nat => min ps (s.filteredEntries.length - i * ps) := funext hlen
  rw [hfun, htp, sum_window_lengths]
  exact Nat.min_eq_left (totalPages_covers s.filteredEntries.length ps hpos).1

theorem window_lengths_sum_witness :
    (updatePagination fifty).totalPages.toNat = 5 ∧
    ((List.range (updatePagination fifty).totalPages.toNat).map fun (i : Nat) =>
        (getCurrentPageEntries { fifty with currentPage := (i : Int) + 1 }).length).sum
      = fifty.filteredEntries.length :=
  ⟨by decide, window_lengths_sum fifty (by decide)⟩

/-- C9: for every non-empty `filteredEntries` and every page size above 0, the
window of the last page (`currentPage = totalPages`) is the tail of the list
from index `(totalPages-1)*pageSize` on; its length is
`filteredEntries.length - (totalPages-1)*pageSize`, lies in `1 .. pageSize`,
and is `pageSize` when `pageSize` divides the length. -/
theorem last_page_window (s : GraphLibrary) (hne : s.filteredEntries ≠ [])
    (hps : 0 < s.entriesPerPage) :
    getCurrentPageEntries { s with currentPage := (updatePagination s).totalPages }
      = s.filteredEntries.drop
          (((updatePagination s).totalPages - 1) * s.entriesPerPage).toNat ∧
    ((getCurrentPageEntries
        { s with currentPage := (updatePagination s).totalPages }).length : Int)
      = (s.filteredEntries.length : Int)
          - ((updatePagination s).totalPages - 1) * s.entriesPerPage ∧
    1 ≤ (getCurrentPageEntries
        { s with currentPage := (updatePagination s).totalPages }).length ∧
    ((getCurrentPageEntries
        { s with currentPage := (updatePagination s).totalPages }).length : Int)
      ≤ s.entriesPerPage ∧
    (s.entriesPerPage ∣ (s.filteredEntries.length : Int) →
      ((getCurrentPageEntries
          { s with currentPage := (updatePagination s).totalPages }).length : Int)
        = s.entriesPerPage) := by
  obtain ⟨ps, hpsEq⟩ := Int.eq_ofNat_of_zero_le (le_of_lt hps)
  have hpos : 0 < ps := by
    have : (0 : Int) < (ps : Int) := hpsEq ▸ hps
    exact_mod_cast this
  have hlenpos : 0 < s.filteredEntries.length := List.length_pos.2 hne
  have htp : (updatePagination s).totalPages
      = ceilDiv (s.filteredEntries.length : Int) (ps : Int) := by
    show ceilDiv _ s.entriesPerPage = _
    rw [hpsEq]
  obtain ⟨hcov, hcast, hup⟩ := totalPages_covers s.filteredEntries.length ps hpos
  have hup := hup hlenpos
  generalize hn : (ceilDiv (s.filteredEntries.length : Int) (ps : Int)).toNat = n at hcov hcast hup
  have hn1 : 1 ≤ n := by
    rcases Nat.eq_zero_or_pos n with h0 | h0
    · rw [h0] at hcov; omega
    · exact h0
  obtain ⟨m, rfl⟩ : ∃ m, n = m + 1 := ⟨n - 1, by omega⟩
  have hmul : (m + 1) * ps = m * ps + ps := Nat.succ_mul m ps
  rw [hmul] at hcov hup
  have hpage : (updatePagination s).totalPages = (m : Int) + 1 := by
    rw [htp, ← hcast]; push_cast; rfl
  have hwin : getCurrentPageEntries { s with currentPage := (updatePagination s).totalPages }
      = (s.filteredEntries.drop (m * ps)).take ps := by
    rw [hpage]; exact getCurrentPageEntries_page s ps m hpsEq
  have hidx : (((updatePagination s).totalPages - 1) * s.entriesPerPage).toNat = m * ps := by
    rw [hpage, hpsEq]
    have : ((m : Int) + 1 - 1) * (ps : Int) = ((m * ps : Nat) : Int) := by push_cast; ring
    rw [this]; exact Int.toNat_natCast _
  have hidx2 : ((updatePagination s).totalPages - 1) * s.entriesPerPage = ((m * ps : Nat) : Int) := by
    rw [hpage, hpsEq]; push_cast; ring
  have hwlen : (getCurrentPageEntries
      { s with currentPage := (updatePagination s).totalPages }).length
        = s.filteredEntries.length - m * ps := by
    rw [hwin, List.length_take, List.length_drop]; omega
  refine ⟨?_, ?_, ?_, ?_, ?_⟩
  · rw [hwin, hidx]
    exact List.take_of_length_le (by rw [List.length_drop]; omega)
  · rw [hwlen, hidx2]; omega
  · rw [hwlen]; omega
  · rw [hwlen, hpsEq]; omega
  · intro hdvd
    obtain ⟨k, hk⟩ := hdvd
    rw [hpsEq] at hk
    have hq : ceilDiv (s.filteredEntries.length : Int) (ps : Int) = k := by
      rw [hk]; exact ceilDiv_mul _ _ (by exact_mod_cast hpos)
    have hk2 : k = (m : Int) + 1 := by rw [← hq, ← hcast]; push_cast; rfl
    have hlen : (s.filteredEntries.length : Int) = ((m * ps + ps : Nat) : Int) := by
      rw [hk, hk2]; push_cast; ring
    have hlen2 : s.filteredEntries.length = m * ps + ps := by exact_mod_cast hlen
    rw [hwlen, hpsEq, hlen2]
    simp

theorem last_page_window_witness :
    (updatePagination fifty).totalPages = 5 ∧
    getCurrentPageEntries { fifty with currentPage := 5 }
      = [numberedEntry 48, numberedEntry 49] ∧
    ((getCurrentPageEntries
        { fifty with currentPage := (updatePagination fifty).totalPages }).length : Int)
      = (fifty.filteredEntries.length : Int)
          - ((updatePagination fifty).totalPages - 1) * fifty.entriesPerPage :=
  ⟨by decide, by decide, (last_page_window fifty (by decide) (by decide)).2.1⟩

/-- C10: whenever `performSearch` finishes, with any query, `currentPage` is 1,
whatever it was before; the same holds whenever its filter step completes
(a blank query, or every entry has a `graphData` property), and the call then
finishes when every entry has a version.  `handlePageSizeChange` with any
positive page size leaves `currentPage` at 1. -/
theorem currentPage_reset (lower : JSString → JSString) (s : GraphLibrary) :
    (∀ input, (performSearch lower s input).error = none →
      (performSearch lower s input).state.currentPage = 1) ∧
    (∀ input, (trim (lower input) = [] ∨ ∀ e ∈ s.entries, e.graphData ≠ none) →
      (performSearch lower s input).state.currentPage = 1 ∧
      ((∀ e ∈ s.entries, e.versions ≠ []) → (performSearch lower s input).error = none)) ∧
    (∀ pageSize : Int, 0 < pageSize → (handlePageSizeChange s pageSize).state.currentPage = 1) := by
  refine ⟨?_, ?_, ?_⟩
  · intro input hret
    cases hf : (if trim (lower input) = [] then Except.ok s.entries
        else filterE (entryMatches lower (trim (lower input))) s.entries) with
    | ok es => exact (performSearch_state_of_filter_ok lower s input es hf).2.1
    | error e =>
      rw [performSearch_of_filter_error lower s input e hf] at hret
      simp at hret
  · intro input hcase
    obtain ⟨es, hes⟩ := search_filter_completes lower s input hcase
    have h := performSearch_state_of_filter_ok lower s input es hes
    exact ⟨h.2.1, h.2.2.2⟩
  · intro pageSize _
    exact render_then_paginate_page_one _ rfl

theorem currentPage_reset_witness :
    ownDemo.currentPage = 2 ∧
    (performSearch asciiLower ownDemo (utf16 " Scale ")).state.currentPage = 1 ∧
    ((performSearch asciiLower ownDemo (utf16 "720")).state.currentPage = 1 ∧
      ((∀ e ∈ ownDemo.entries, e.versions ≠ []) →
        (performSearch asciiLower ownDemo (utf16 "720")).error = none)) ∧
    (handlePageSizeChange ownDemo 24).state.currentPage = 1 :=
  ⟨by decide,
    (currentPage_reset asciiLower ownDemo).1 (utf16 " Scale ") (by decide),
    (currentPage_reset asciiLower ownDemo).2.1 (utf16 "720") (Or.inr (by decide)),
    (currentPage_reset asciiLower ownDemo).2.2 24 (by decide)⟩

/-! ## Page-number bar: supporting lemmas -/

theorem length_pagesFromTo (a b : Int) : (pagesFromTo a b).length = (b + 1 - a).toNat := by
  simp [pagesFromTo]

theorem mem_pagesFromTo (a b i : Int) : i ∈ pagesFromTo a b ↔ a ≤ i ∧ i ≤ b := by
  unfold pagesFromTo
  simp only [List.mem_map, List.mem_range]
  constructor
  · rintro ⟨k, hk, rfl⟩
    omega
  · rintro ⟨h1, h2⟩
    exact ⟨(i - a).toNat, by omega, by omega⟩

theorem pagesFromTo_consecutive (a b : Int) :
    List.Chain' (fun x y => y = x + 1) (pagesFromTo a b) := by
  unfold pagesFromTo
  generalize (b + 1 - a).toNat = n
  induction n with
  | zero => simp
  | succ n ih =>
    rw [List.range_succ, List.map_append]
    refine List.Chain'.append ih (by simp) ?_
    intro x hx y hy
    simp only [List.map_cons, List.map_nil, List.head?_cons, Option.mem_def,
      Option.some.injEq] at hy
    subst hy
    cases n with
    | zero => simp at hx
    | succ m =>
      rw [List.range_succ, List.map_append] at hx
      simp at hx
      subst hx
      push_cast
      ring

theorem head_pagesFromTo (a b : Int) (h : a ≤ b) : (pagesFromTo a b).head? = some a := by
  unfold pagesFromTo
  obtain ⟨n, hn⟩ : ∃ n, (b + 1 - a).toNat = n + 1 := ⟨(b - a).toNat, by omega⟩
  rw [hn, List.range_succ_eq_map]
  simp

theorem getLast_pagesFromTo (a b : Int) (h : a ≤ b) : (pagesFromTo a b).getLast? = some b := by
  unfold pagesFromTo
  have hn : (b + 1 - a).toNat = (b - a).toNat + 1 := by omega
  rw [hn, List.range_succ, List.map_append]
  simp only [List.map_cons, List.map_nil, List.getLast?_append, List.getLast?_singleton]
  have hb : a + ((b - a).toNat : Int) = b := by omega
  rw [hb]
  rfl

theorem numberedButtons_bar (s : GraphLibrary) (pre post : List PageItem) (pages : List Int)
    (hpre : ∀ item ∈ pre, item = PageItem.ellipsis)
    (hpost : ∀ item ∈ post, item = PageItem.ellipsis) :
    numberedButtons (pre ++ pages.map (addPageNumber s) ++ post) = pages := by
  have hell : ∀ l : List PageItem, (∀ item ∈ l, item = PageItem.ellipsis) →
      numberedButtons l = [] := by
    intro l hl
    unfold numberedButtons
    rw [List.filterMap_eq_nil_iff]
    intro item hitem
    rw [hl item hitem]
  have hmid : numberedButtons (pages.map (addPageNumber s)) = pages := by
    unfold numberedButtons
    rw [List.filterMap_map]
    conv_rhs => rw [← List.filterMap_some pages]
    rfl
  have happ : ∀ l₁ l₂ : List PageItem,
      numberedButtons (l₁ ++ l₂) = numberedButtons l₁ ++ numberedButtons l₂ := by
    intro l₁ l₂
    unfold numberedButtons
    exact List.filterMap_append _ _ _
  rw [happ, happ, hell pre hpre, hell post hpost, hmid]
  simp

theorem numberedButtons_updatePageNumbers (s : GraphLibrary) (h : s.totalPages ≠ 0) :
    numberedButtons (updatePageNumbers s) = pagesFromTo (pageWindow s).1 (pageWindow s).2 := by
  unfold updatePageNumbers
  rw [if_neg h]
  apply numberedButtons_bar
  · intro item hitem
    split at hitem <;> simp at hitem
    exact hitem
  · intro item hitem
    split at hitem <;> simp at hitem
    exact hitem

theorem pagesFromTo_cons (a b : Int) (h : a ≤ b) :
    pagesFromTo a b = a :: pagesFromTo (a + 1) b := by
  unfold pagesFromTo
  have hn : (b + 1 - a).toNat = (b + 1 - (a + 1)).toNat + 1 := by omega
  rw [hn, List.range_succ_eq_map, List.map_cons, List.map_map]
  congr 1
  · simp
  · apply List.map_congr_left
    intro k _
    simp only [Function.comp_apply]
    push_cast
    ring

theorem pagesFromTo_concat (a b : Int) (h : a ≤ b) :
    pagesFromTo a b = pagesFromTo a (b - 1) ++ [b] := by
  unfold pagesFromTo
  have hn : (b + 1 - a).toNat = (b - 1 + 1 - a).toNat + 1 := by omega
  rw [hn, List.range_succ, List.map_append]
  congr 1
  simp only [List.map_cons, List.map_nil, List.cons.injEq, and_true]
  omega

theorem pageWindow_bounds (s : GraphLibrary) (hlo : 1 ≤ s.currentPage)
    (hhi : s.currentPage ≤ s.totalPages) :
    1 ≤ (pageWindow s).1 ∧ (pageWindow s).1 ≤ s.currentPage ∧
      s.currentPage ≤ (pageWindow s).2 ∧ (pageWindow s).2 ≤ s.totalPages ∧
      (pageWindow s).2 + 1 - (pageWindow s).1 = min 5 s.totalPages := by
  unfold pageWindow
  simp only
  split_ifs <;> simp only <;> omega

theorem ceilDiv_eq_one (a b : Int) (ha : 0 < a) (hab : a ≤ b) : ceilDiv a b = 1 := by
  have hb : 0 < b := lt_of_lt_of_le ha hab
  obtain ⟨h1, h2⟩ := ceilDiv_bounds a b hb
  have hq1 : 0 < ceilDiv a b := by
    by_contra hneg
    have : b * ceilDiv a b ≤ 0 := Int.mul_nonpos_of_nonneg_of_nonpos (le_of_lt hb) (by omega)
    omega
  have hq2 : ceilDiv a b < 2 := by
    by_contra hneg
    have : b * 2 ≤ b * ceilDiv a b := Int.mul_le_mul_of_nonneg_left (by omega) (le_of_lt hb)
    omega
  omega

/-! ## Page-number bar: settled claims -/

/-- C11: for every state with `1 ≤ currentPage ≤ totalPages`,
`updatePageNumbers` renders at most 5 numbered page buttons. -/
theorem updatePageNumbers_at_most_five (s : GraphLibrary) (hlo : 1 ≤ s.currentPage)
    (hhi : s.currentPage ≤ s.totalPages) :
    (numberedButtons (updatePageNumbers s)).length ≤ 5 := by
  rw [numberedButtons_updatePageNumbers s (by omega), length_pagesFromTo]
  have h := (pageWindow_bounds s hlo hhi).2.2.2.2
  omega

theorem updatePageNumbers_at_most_five_witness :
    (numberedButtons (updatePageNumbers midBar)).length ≤ 5 :=
  updatePageNumbers_at_most_five midBar (by decide) (by decide)

/-- C12: for every state with `1 ≤ currentPage ≤ totalPages`, the numbered
buttons that `updatePageNumbers` renders are consecutive pages, namely those of
`[1, min(5, totalPages)]` whenever `currentPage ≤ 3`, of
`[max(1, totalPages-4), totalPages]` whenever `currentPage ≥ totalPages-2`
(also when `currentPage ≤ 3` holds too), and of
`[currentPage-2, currentPage+2]` otherwise. -/
theorem updatePageNumbers_window (s : GraphLibrary) (hlo : 1 ≤ s.currentPage)
    (hhi : s.currentPage ≤ s.totalPages) :
    List.Chain' (fun x y => y = x + 1) (numberedButtons (updatePageNumbers s)) ∧
    (s.currentPage ≤ 3 →
      numberedButtons (updatePageNumbers s) = pagesFromTo 1 (min 5 s.totalPages)) ∧
    (s.currentPage ≥ s.totalPages - 2 →
      numberedButtons (updatePageNumbers s)
        = pagesFromTo (max 1 (s.totalPages - 4)) s.totalPages) ∧
    (¬ s.currentPage ≤ 3 → ¬ s.currentPage ≥ s.totalPages - 2 →
      numberedButtons (updatePageNumbers s)
        = pagesFromTo (s.currentPage - 2) (s.currentPage + 2)) := by
  rw [numberedButtons_updatePageNumbers s (by omega)]
  refine ⟨pagesFromTo_consecutive _ _, ?_, ?_, ?_⟩
  · intro h3
    unfold pageWindow
    simp only [if_pos h3]
    congr 1
    omega
  · intro hend
    unfold pageWindow
    simp only
    split_ifs with h3
    · simp only
      congr 1 <;> omega
    · simp only
      congr 1
      omega
  · intro h3 hend
    unfold pageWindow
    simp only [if_neg h3, if_neg hend]
    congr 1 <;> omega

theorem updatePageNumbers_window_witness :
    numberedButtons (updatePageNumbers shortBar) = [1, 2, 3, 4] ∧
    numberedButtons (updatePageNumbers shortBar) = pagesFromTo 1 (min 5 shortBar.totalPages) ∧
    numberedButtons (updatePageNumbers shortBar)
      = pagesFromTo (max 1 (shortBar.totalPages - 4)) shortBar.totalPages ∧
    numberedButtons (updatePageNumbers endBar)
      = pagesFromTo (max 1 (endBar.totalPages - 4)) endBar.totalPages ∧
    numberedButtons (updatePageNumbers midBar)
      = pagesFromTo (midBar.currentPage - 2) (midBar.currentPage + 2) :=
  ⟨by decide,
    (updatePageNumbers_window shortBar (by decide) (by decide)).2.1 (by decide),
    (updatePageNumbers_window shortBar (by decide) (by decide)).2.2.1 (by decide),
    (updatePageNumbers_window endBar (by decide) (by decide)).2.2.1 (by decide),
    (updatePageNumbers_window midBar (by decide) (by decide)).2.2.2 (by decide) (by decide)⟩

/-- C13: for every state with `1 ≤ currentPage ≤ totalPages`, the bar that
`updatePageNumbers` renders is an ellipsis if and only if the first numbered
button is above 1, then the numbered buttons, then an ellipsis if and only if
the last numbered button is below `totalPages`.  For every non-empty
`filteredEntries` that fits in one page, `updatePagination` gives
`totalPages = 1`, the page window is the whole list and the bar is the single
button 1, without ellipsis. -/
theorem updatePageNumbers_ellipses (s : GraphLibrary) (hlo : 1 ≤ s.currentPage)
    (hhi : s.currentPage ≤ s.totalPages) :
    (∃ first last,
      (numberedButtons (updatePageNumbers s)).head? = some first ∧
      (numberedButtons (updatePageNumbers s)).getLast? = some last ∧
      ((updatePageNumbers s).head? = some PageItem.ellipsis ↔ 1 < first) ∧
      ((updatePageNumbers s).getLast? = some PageItem.ellipsis ↔ last < s.totalPages) ∧
      updatePageNumbers s
        = (if 1 < first then [PageItem.ellipsis] else []) ++
            (numberedButtons (updatePageNumbers s)).map (addPageNumber s) ++
            (if last < s.totalPages then [PageItem.ellipsis] else [])) ∧
    (∀ t : GraphLibrary, 0 < t.entriesPerPage → t.filteredEntries ≠ [] →
      (t.filteredEntries.length : Int) ≤ t.entriesPerPage →
      (updatePagination t).totalPages = 1 ∧
      getCurrentPageEntries (updatePagination t) = t.filteredEntries ∧
      updatePageNumbers (updatePagination t) = [PageItem.pageNumber 1 true]) := by
  constructor
  · obtain ⟨_, h2, h3, _, _⟩ := pageWindow_bounds s hlo hhi
    have hab : (pageWindow s).1 ≤ (pageWindow s).2 := le_trans h2 h3
    have htp : s.totalPages ≠ 0 := by omega
    have hnum := numberedButtons_updatePageNumbers s htp
    have hbar : updatePageNumbers s
        = (if 1 < (pageWindow s).1 then [PageItem.ellipsis] else []) ++
            (pagesFromTo (pageWindow s).1 (pageWindow s).2).map (addPageNumber s) ++
            (if (pageWindow s).2 < s.totalPages then [PageItem.ellipsis] else []) := by
      unfold updatePageNumbers
      rw [if_neg htp]
    refine ⟨(pageWindow s).1, (pageWindow s).2, ?_, ?_, ?_, ?_, ?_⟩
    · rw [hnum]; exact head_pagesFromTo _ _ hab
    · rw [hnum]; exact getLast_pagesFromTo _ _ hab
    · rw [hbar, pagesFromTo_cons _ _ hab]
      by_cases h1 : 1 < (pageWindow s).1
      · simp [h1]
      · simp [h1, addPageNumber]
    · rw [hbar, pagesFromTo_concat _ _ hab, List.map_append]
      by_cases h2 : (pageWindow s).2 < s.totalPages
      · rw [if_pos h2, List.getLast?_concat]
        simp [h2]
      · rw [if_neg h2, List.append_nil, ← List.append_assoc, List.map_cons, List.map_nil,
          List.getLast?_concat]
        simp [h2, addPageNumber]
    · rw [hnum]; exact hbar
  · intro t hps hne hfit
    have hlen : (0 : Int) < (t.filteredEntries.length : Int) := by
      exact_mod_cast List.length_pos.2 hne
    have htp : (updatePagination t).totalPages = 1 := ceilDiv_eq_one _ _ hlen hfit
    have hcp : (updatePagination t).currentPage = 1 := by
      show max 1 (min t.currentPage (ceilDiv _ _)) = (1 : Int)
      rw [ceilDiv_eq_one _ _ hlen hfit]
      omega
    refine ⟨htp, ?_, ?_⟩
    · obtain ⟨ps, hpsEq⟩ := Int.eq_ofNat_of_zero_le (le_of_lt hps)
      have hwin : getCurrentPageEntries (updatePagination t)
          = slice t.filteredEntries (((0 : Nat) : Int)) ((((0 : Nat) : Int)) + (ps : Int)) := by
        unfold getCurrentPageEntries
        simp only [hcp]
        show slice t.filteredEntries ((1 - 1) * t.entriesPerPage)
          ((1 - 1) * t.entriesPerPage + t.entriesPerPage) = _
        rw [hpsEq]
        simp
      rw [hwin, slice_window, List.drop_zero]
      apply List.take_of_length_le
      rw [hpsEq] at hfit
      exact_mod_cast hfit
    · unfold updatePageNumbers pageWindow
      simp only [hcp, htp]
      norm_num [pagesFromTo, hcp]
      simp [List.range_succ, addPageNumber, hcp]

theorem updatePageNumbers_ellipses_witness :
    getCurrentPageEntries (updatePagination sevenOnTwelve) = (List.range 7).map numberedEntry ∧
    updatePageNumbers midBar
      = [PageItem.ellipsis, PageItem.pageNumber 5 false, PageItem.pageNumber 6 false,
          PageItem.pageNumber 7 true, PageItem.pageNumber 8 false,
          PageItem.pageNumber 9 false, PageItem.ellipsis] ∧
    (∃ first last,
      (numberedButtons (updatePageNumbers midBar)).head? = some first ∧
      (numberedButtons (updatePageNumbers midBar)).getLast? = some last ∧
      ((updatePageNumbers midBar).head? = some PageItem.ellipsis ↔ 1 < first) ∧
      ((updatePageNumbers midBar).getLast? = some PageItem.ellipsis ↔ last < midBar.totalPages) ∧
      updatePageNumbers midBar
        = (if 1 < first then [PageItem.ellipsis] else []) ++
            (numberedButtons (updatePageNumbers midBar)).map (addPageNumber midBar) ++
            (if last < midBar.totalPages then [PageItem.ellipsis] else [])) ∧
    ((updatePagination sevenOnTwelve).totalPages = 1 ∧
      getCurrentPageEntries (updatePagination sevenOnTwelve) = sevenOnTwelve.filteredEntries ∧
      updatePageNumbers (updatePagination sevenOnTwelve) = [PageItem.pageNumber 1 true]) :=
  ⟨by decide, by decide,
    (updatePageNumbers_ellipses midBar (by decide) (by decide)).1,
    (updatePageNumbers_ellipses midBar (by decide) (by decide)).2 sevenOnTwelve
      (by decide) (by decide) (by decide)⟩

/-! ## Loader: supporting lemmas -/

theorem getElem?_slots {α : Type} (vs : List α) (done : List Nat) (m : Nat) :
    (slots vs done)[m]? = if m < vs.length then some (if m ∈ done then vs[m]? else none) else none := by
  unfold slots
  rw [List.getElem?_map]
  by_cases h : m < vs.length
  · rw [List.getElem?_range h, if_pos h]; rfl
  · rw [if_neg h, List.getElem?_eq_none (by simpa using h)]; rfl

theorem slots_set {α : Type} (vs : List α) (done : List Nat) (i : Nat) (v : α)
    (h : vs[i]? = some v) : (slots vs done).set i (some v) = slots vs (i :: done) := by
  apply List.ext_getElem?
  intro m
  rw [List.getElem?_set, getElem?_slots, getElem?_slots]
  have hlen : (slots vs done).length = vs.length := by simp [slots]
  by_cases him : i = m
  · subst him
    have hi : i < vs.length := by
      by_contra hc
      rw [List.getElem?_eq_none (by omega)] at h
      simp at h
    simp [hlen, hi, h]
  · simp only [if_neg him]
    by_cases hm : m < vs.length
    · have : (m ∈ i :: done) ↔ m ∈ done := by
        simp [List.mem_cons, Ne.symm him]
      simp [hm, this]
    · simp [hm]

theorem slots_skip {α : Type} (vs : List α) (done : List Nat) (i : Nat)
    (h : vs.length ≤ i) : slots vs (i :: done) = slots vs done := by
  unfold slots
  apply List.map_congr_left
  intro j hj
  have hjlt : j < vs.length := List.mem_range.1 hj
  have : (j ∈ i :: done) ↔ j ∈ done := by
    simp only [List.mem_cons]
    constructor
    · rintro (rfl | h') <;> [omega; exact h']
    · exact Or.inr
  simp [this]

theorem slots_full {α : Type} (vs : List α) (done : List Nat)
    (h : ∀ j < vs.length, j ∈ done) : slots vs done = vs.map some := by
  apply List.ext_getElem?
  intro m
  rw [getElem?_slots, List.getElem?_map]
  by_cases hm : m < vs.length
  · simp [hm, h m hm, List.getElem?_eq_getElem hm]
  · simp [hm, List.getElem?_eq_none (Nat.le_of_not_lt hm)]

theorem promiseAllLoop_fulfilled {α : Type} (vs : List α) :
    ∀ (rest done : List Nat), (∀ j < vs.length, j ∈ rest ∨ j ∈ done) →
      promiseAllLoop (vs.map Promise.fulfilled) (slots vs done) rest = Promise.fulfilled vs
  | [], done, h => by
    have hfull := slots_full vs done fun j hj => (h j hj).resolve_left (by simp)
    unfold promiseAllLoop
    rw [hfull]
    simp [List.filterMap_map]
  | i :: rest, done, h => by
    have hstep : ∀ j < vs.length, j ∈ rest ∨ j ∈ i :: done := by
      intro j hj
      rcases h j hj with h1 | h1
      · rcases List.mem_cons.1 h1 with rfl | h2
        · exact Or.inr (List.mem_cons_self _ _)
        · exact Or.inl h2
      · exact Or.inr (List.mem_cons_of_mem _ h1)
    have ih := promiseAllLoop_fulfilled vs rest (i :: done) hstep
    unfold promiseAllLoop
    by_cases hi : i < vs.length
    · have hget : (vs.map Promise.fulfilled)[i]? = some (Promise.fulfilled vs[i]) := by
        rw [List.getElem?_map, List.getElem?_eq_getElem hi]; rfl
      simp only [hget]
      rw [slots_set vs done i vs[i] (List.getElem?_eq_getElem hi)]
      exact ih
    · have hget : (vs.map Promise.fulfilled)[i]? = none := by
        rw [List.getElem?_map, List.getElem?_eq_none (Nat.le_of_not_lt hi)]; rfl
      simp only [hget]
      rw [← slots_skip vs done i (Nat.le_of_not_lt hi)]
      exact ih

theorem promiseAll_fulfilled {α : Type} (vs : List α) (completion : List Nat)
    (h : ∀ j < vs.length, j ∈ completion) :
    promiseAll (vs.map Promise.fulfilled) completion = Promise.fulfilled vs := by
  unfold promiseAll
  have hinit : List.replicate (vs.map (Promise.fulfilled)).length (none : Option α) = slots vs [] := by
    apply List.ext_getElem?
    intro m
    rw [getElem?_slots, List.getElem?_replicate]
    simp
  rw [hinit]
  exact promiseAllLoop_fulfilled vs completion [] fun j hj => Or.inl (h j hj)

theorem promiseAllLoop_rejected {α : Type} (promises : List (Promise α)) :
    ∀ (completion : List Nat) (values : List (Option α)),
      (∃ i ∈ completion, ∃ e, promises[i]? = some (Promise.rejected e)) →
      ∃ e, promiseAllLoop promises values completion = Promise.rejected e
  | [], _, h => by
    obtain ⟨i, hi, _⟩ := h
    simp at hi
  | i :: rest, values, h => by
    unfold promiseAllLoop
    have hrest : (∃ e, promises[i]? = some (Promise.rejected e)) ∨
        ∃ k ∈ rest, ∃ e, promises[k]? = some (Promise.rejected e) := by
      obtain ⟨k, hk, e, he⟩ := h
      rcases List.mem_cons.1 hk with rfl | hk'
      · exact Or.inl ⟨e, he⟩
      · exact Or.inr ⟨k, hk', e, he⟩
    cases hp : promises[i]? with
    | none =>
      rcases hrest with ⟨e, he⟩ | hr
      · rw [hp] at he; simp at he
      · exact promiseAllLoop_rejected promises rest values hr
    | some pr =>
      cases pr with
      | rejected e => exact ⟨e, rfl⟩
      | pending =>
        rcases hrest with ⟨e, he⟩ | hr
        · rw [hp] at he; simp at he
        · exact promiseAllLoop_rejected promises rest values hr
      | fulfilled v =>
        rcases hrest with ⟨e, he⟩ | hr
        · rw [hp] at he; simp at he
        · exact promiseAllLoop_rejected promises rest _ hr

theorem getElem?_mapFrom {α β : Type} (f : Nat → α → β) :
    ∀ (xs : List α) (k j : Nat), (mapFrom f k xs)[j]? = xs[j]?.map (f (k + j))
  | [], _, _ => rfl
  | x :: xs, k, 0 => by
    unfold mapFrom
    simp
  | x :: xs, k, j + 1 => by
    unfold mapFrom
    rw [List.getElem?_cons_succ, List.getElem?_cons_succ, getElem?_mapFrom f xs (k + 1) j]
    have : k + 1 + j = k + (j + 1) := by omega
    rw [this]

theorem mapFrom_eq_map {α β : Type} (f : Nat → α → β) (g : α → β) (xs : List α) (k : Nat)
    (h : ∀ j x, xs[j]? = some x → f (k + j) x = g x) : mapFrom f k xs = xs.map g := by
  apply List.ext_getElem?
  intro j
  rw [getElem?_mapFrom, List.getElem?_map]
  cases hx : xs[j]? with
  | none => rfl
  | some x => simp [h j x hx]

theorem versionPromises_fulfilled (site : Site) (graphNames : List JSString)
    (manifests : JSString → Manifest) (payloads : JSString → JSString → JSString)
    (hsite : AllFetchesSucceed site graphNames manifests payloads)
    (name : JSString) (hname : name ∈ graphNames) (completion : List Nat)
    (hfair : ∀ j < (manifests name).graphs.length, j ∈ completion) :
    promiseAll ((manifests name).graphs.map (versionPromise site name)) completion
      = Promise.fulfilled ((manifests name).graphs.map fun version =>
          ({ version := version, graphData := payloads name version } : Version)) := by
  have hmap : (manifests name).graphs.map (versionPromise site name)
      = ((manifests name).graphs.map fun version =>
          ({ version := version, graphData := payloads name version } : Version)).map
            Promise.fulfilled := by
    rw [List.map_map]
    apply List.map_congr_left
    intro version hv
    obtain ⟨status, hfetch, hok⟩ := hsite.2.2 name hname version hv
    unfold versionPromise
    simp only [hfetch, hok, if_true, Function.comp_apply]
  rw [hmap]
  exact promiseAll_fulfilled _ completion (by simpa using hfair)

theorem entryPromise_fulfilled (site : Site) (graphNames : List JSString)
    (manifests : JSString → Manifest) (payloads : JSString → JSString → JSString)
    (hsite : AllFetchesSucceed site graphNames manifests payloads)
    (name : JSString) (hname : name ∈ graphNames) (completion : List Nat)
    (hfair : ∀ j < (manifests name).graphs.length, j ∈ completion) :
    entryPromise site completion name
      = Promise.fulfilled (loadedEntry manifests payloads name) := by
  obtain ⟨status, body, hfetch, hok, hparse⟩ := hsite.2.1 name hname
  unfold entryPromise
  simp only [hfetch, hok, if_true, hparse,
    versionPromises_fulfilled site graphNames manifests payloads hsite name hname completion hfair]
  rfl

theorem entryPromises_fulfilled (site : Site) (graphNames : List JSString)
    (manifests : JSString → Manifest) (payloads : JSString → JSString → JSString)
    (hsite : AllFetchesSucceed site graphNames manifests payloads)
    (schedule : Schedule) (hfair : schedule.Fair graphNames manifests) :
    promiseAll
        (mapFrom (fun i graphName => entryPromise site (schedule.versions i) graphName)
          0 graphNames) schedule.groups
      = Promise.fulfilled (graphNames.map (loadedEntry manifests payloads)) := by
  have hmap : mapFrom (fun i graphName => entryPromise site (schedule.versions i) graphName)
      0 graphNames
        = (graphNames.map (loadedEntry manifests payloads)).map Promise.fulfilled := by
    rw [List.map_map]
    apply mapFrom_eq_map
    intro j name hj
    rw [Nat.zero_add]
    exact entryPromise_fulfilled site graphNames manifests payloads hsite name
      (List.getElem?_mem hj) _ (hfair.2 j name hj)
  rw [hmap]
  exact promiseAll_fulfilled _ schedule.groups (by simpa using hfair.1)

/-- The fields after a load in which every fetch succeeds. -/
theorem loadGraphData_of_success (s : GraphLibrary) (site : Site) (pageSize : Int)
    (graphNames : List JSString) (manifests : JSString → Manifest)
    (payloads : JSString → JSString → JSString)
    (hsite : AllFetchesSucceed site graphNames manifests payloads)
    (schedule : Schedule) (hfair : schedule.Fair graphNames manifests) :
    (loadGraphData s site pageSize schedule).state.entries
        = graphNames.map (loadedEntry manifests payloads) ∧
    (loadGraphData s site pageSize schedule).state.filteredEntries
        = graphNames.map (loadedEntry manifests payloads) := by
  obtain ⟨status, body, hfetch, hok, hparse⟩ := hsite.1
  have hall := entryPromises_fulfilled site graphNames manifests payloads hsite schedule hfair
  unfold loadGraphData
  simp only [hfetch, hok, if_true, hparse, hall]
  split <;> exact ⟨rfl, rfl⟩

theorem promiseAll_rejected {α : Type} (promises : List (Promise α)) (completion : List Nat)
    (i : Nat) (e : LoadError) (hi : i ∈ completion)
    (h : promises[i]? = some (Promise.rejected e)) :
    ∃ e', promiseAll promises completion = Promise.rejected e' :=
  promiseAllLoop_rejected promises completion _ ⟨i, hi, e, h⟩

theorem versionPromise_rejected (site : Site) (name version : JSString)
    (h : fetchFails (site.fetch (payloadUrl name version)) = true) :
    ∃ e, versionPromise site name version = Promise.rejected e := by
  unfold versionPromise
  cases hf : site.fetch (payloadUrl name version) with
  | networkError => exact ⟨_, rfl⟩
  | response status body =>
    rw [hf] at h
    have hok : statusOk status = false := by simpa [fetchFails] using h
    simp only [hok]
    exact ⟨_, rfl⟩

theorem entryPromise_rejected (site : Site) (completion : List Nat) (name : JSString)
    (hfail : fetchFails (site.fetch (manifestUrl name)) = true ∨
      ∃ status body generalData j version,
        site.fetch (manifestUrl name) = FetchResult.response status body ∧
        statusOk status = true ∧ site.parseManifest body = some generalData ∧
        generalData.graphs[j]? = some version ∧ j ∈ completion ∧
        fetchFails (site.fetch (payloadUrl name version)) = true) :
    ∃ e, entryPromise site completion name = Promise.rejected e := by
  unfold entryPromise
  rcases hfail with h | ⟨status, body, generalData, j, version, hfetch, hok, hparse, hj, hmem, hpay⟩
  · cases hf : site.fetch (manifestUrl name) with
    | networkError => exact ⟨_, rfl⟩
    | response status body =>
      rw [hf] at h
      have hok : statusOk status = false := by simpa [fetchFails] using h
      simp only [hok]
      exact ⟨_, rfl⟩
  · obtain ⟨e, he⟩ := versionPromise_rejected site name version hpay
    have hget : (generalData.graphs.map (versionPromise site name))[j]?
        = some (Promise.rejected e) := by
      rw [List.getElem?_map, hj]
      simp [he]
    obtain ⟨e', he'⟩ := promiseAll_rejected _ completion j e hmem hget
    simp only [hfetch, hok, if_true, hparse, he']
    exact ⟨_, rfl⟩

/-! ## Loader: settled claims -/

theorem demoSite_succeeds :
    AllFetchesSucceed demoSite [utf16 "scale", utf16 "crop"] demoManifests demoPayloads := by
  refine ⟨⟨200, utf16 "\x7b\"graphs\":[\"scale\",\"crop\"]\x7d", by decide, by decide,
    by decide⟩, ?_, ?_⟩
  · intro name hname
    simp only [List.mem_cons, List.mem_singleton, List.not_mem_nil, or_false] at hname
    rcases hname with rfl | rfl
    · exact ⟨200, utf16 "scale.json", by decide, by decide, by decide⟩
    · exact ⟨200, utf16 "crop.json", by decide, by decide, by decide⟩
  · intro name hname version hversion
    simp only [List.mem_cons, List.mem_singleton, List.not_mem_nil, or_false] at hname
    rcases hname with rfl | rfl
    · have hv : version = utf16 "7.1" ∨ version = utf16 "6.0" := by
        simpa [demoManifests, scaleManifest] using hversion
      rcases hv with rfl | rfl
      · exact ⟨200, by decide, by decide⟩
      · exact ⟨200, by decide, by decide⟩
    · have hv : version = utf16 "7.1" := by
        have hm : demoManifests (utf16 "crop") = cropManifest := by decide
        rw [hm] at hversion
        simpa [cropManifest] using hversion
      subst hv
      exact ⟨200, by decide, by decide⟩

theorem reversed_fair :
    reversed.Fair [utf16 "scale", utf16 "crop"] demoManifests := by
  constructor
  · intro i hi
    have : i = 0 ∨ i = 1 := by
      simp only [List.length_cons, List.length_nil] at hi
      omega
    rcases this with rfl | rfl <;> decide
  · intro i name _ j hj
    have hlen : (demoManifests name).graphs.length ≤ 2 := by
      unfold demoManifests
      split <;> decide
    have : j = 0 ∨ j = 1 := by omega
    rcases this with rfl | rfl <;> simp [reversed]

theorem inOrder_fair :
    inOrder.Fair [utf16 "scale", utf16 "crop"] demoManifests := by
  constructor
  · intro i hi
    have : i = 0 ∨ i = 1 := by
      simp only [List.length_cons, List.length_nil] at hi
      omega
    rcases this with rfl | rfl <;> decide
  · intro i name _ j hj
    have hlen : (demoManifests name).graphs.length ≤ 2 := by
      unfold demoManifests
      split <;> decide
    have : j = 0 ∨ j = 1 := by omega
    rcases this with rfl | rfl <;> simp [inOrder]

/-- C14: when every fetch succeeds, `loadGraphData` sets `entries` to a list
with one entry per group identifier of the index document, in the index order
(entry `i` is the one assembled from the manifest of group `i`), whatever the
order in which the concurrent fetches complete. -/
theorem loadGraphData_entries_in_index_order (s : GraphLibrary) (site : Site) (pageSize : Int)
    (graphNames : List JSString) (manifests : JSString → Manifest)
    (payloads : JSString → JSString → JSString)
    (hsite : AllFetchesSucceed site graphNames manifests payloads)
    (schedule : Schedule) (hfair : schedule.Fair graphNames manifests) :
    (loadGraphData s site pageSize schedule).state.entries.length = graphNames.length ∧
    (loadGraphData s site pageSize schedule).state.entries
      = graphNames.map (loadedEntry manifests payloads) ∧
    (∀ other : Schedule, other.Fair graphNames manifests →
      (loadGraphData s site pageSize other).state.entries
        = (loadGraphData s site pageSize schedule).state.entries) := by
  have h := (loadGraphData_of_success s site pageSize graphNames manifests payloads hsite
    schedule hfair).1
  refine ⟨by rw [h, List.length_map], h, ?_⟩
  intro other hother
  rw [h, (loadGraphData_of_success s site pageSize graphNames manifests payloads hsite
    other hother).1]

theorem loadGraphData_entries_in_index_order_witness :
    (loadGraphData constructed demoSite 12 reversed).state.entries.map (fun e => e.title)
      = [utf16 "Scale", utf16 "Crop"] ∧
    (loadGraphData constructed demoSite 12 reversed).state.entries.length
      = [utf16 "scale", utf16 "crop"].length ∧
    (loadGraphData constructed demoSite 12 reversed).state.entries
      = [utf16 "scale", utf16 "crop"].map (loadedEntry demoManifests demoPayloads) ∧
    (∀ other : Schedule, other.Fair [utf16 "scale", utf16 "crop"] demoManifests →
      (loadGraphData constructed demoSite 12 other).state.entries
        = (loadGraphData constructed demoSite 12 reversed).state.entries) :=
  ⟨by decide,
    loadGraphData_entries_in_index_order constructed demoSite 12 [utf16 "scale", utf16 "crop"]
      demoManifests demoPayloads demoSite_succeeds reversed reversed_fair⟩

/-- C15: when every fetch succeeds, the entry loaded for a group carries the
fields of its manifest and a `versions` list with one element per version
descriptor of the manifest, in manifest order: element `j` has the version of
descriptor `j` and, as `graphData`, the body text of the payload document
fetched for that version, as received. -/
theorem loadGraphData_entry_fields (s : GraphLibrary) (site : Site) (pageSize : Int)
    (graphNames : List JSString) (manifests : JSString → Manifest)
    (payloads : JSString → JSString → JSString)
    (hsite : AllFetchesSucceed site graphNames manifests payloads)
    (schedule : Schedule) (hfair : schedule.Fair graphNames manifests)
    (i : Nat) (name : JSString) (hname : graphNames[i]? = some name) :
    ∃ e, (loadGraphData s site pageSize schedule).state.entries[i]? = some e ∧
      e.title = (manifests name).title ∧
      e.description = (manifests name).description ∧
      e.tags = (manifests name).tags ∧
      e.image = (manifests name).image ∧
      e.graphData = (manifests name).graphData ∧
      e.versions.length = (manifests name).graphs.length ∧
      (∀ (j : Nat) (version : JSString), (manifests name).graphs[j]? = some version →
        e.versions[j]? = some
          ({ version := version, graphData := payloads name version } : Version)) ∧
      (∀ (j : Nat) (version : JSString), (manifests name).graphs[j]? = some version →
        ∃ status, site.fetch (payloadUrl name version)
          = FetchResult.response status (payloads name version)) := by
  have h := (loadGraphData_of_success s site pageSize graphNames manifests payloads hsite
    schedule hfair).1
  refine ⟨loadedEntry manifests payloads name, ?_, rfl, rfl, rfl, rfl, rfl, ?_, ?_, ?_⟩
  · rw [h, List.getElem?_map, hname]
    rfl
  · simp [loadedEntry, assembleEntry]
  · intro j version hj
    simp [loadedEntry, assembleEntry, List.getElem?_map, hj]
  · intro j version hj
    obtain ⟨status, hfetch, _⟩ := hsite.2.2 name (List.getElem?_mem hname) version
      (List.getElem?_mem hj)
    exact ⟨status, hfetch⟩

theorem loadGraphData_entry_fields_witness :
    ∃ e, (loadGraphData constructed demoSite 12 inOrder).state.entries[0]? = some e ∧
      e.title = (demoManifests (utf16 "scale")).title ∧
      e.description = (demoManifests (utf16 "scale")).description ∧
      e.tags = (demoManifests (utf16 "scale")).tags ∧
      e.image = (demoManifests (utf16 "scale")).image ∧
      e.graphData = (demoManifests (utf16 "scale")).graphData ∧
      e.versions.length = (demoManifests (utf16 "scale")).graphs.length ∧
      (∀ (j : Nat) (version : JSString),
        (demoManifests (utf16 "scale")).graphs[j]? = some version →
        e.versions[j]? = some
          ({ version := version, graphData := demoPayloads (utf16 "scale") version } :
            Version)) ∧
      (∀ (j : Nat) (version : JSString),
        (demoManifests (utf16 "scale")).graphs[j]? = some version →
        ∃ status, demoSite.fetch (payloadUrl (utf16 "scale") version)
          = FetchResult.response status (demoPayloads (utf16 "scale") version)) :=
  loadGraphData_entry_fields constructed demoSite 12 [utf16 "scale", utf16 "crop"]
    demoManifests demoPayloads demoSite_succeeds inOrder inOrder_fair 0 (utf16 "scale")
    (by decide)

/-- C16: if the fetch of the index document fails or returns a non-success
status, `loadGraphData` requests no other document, leaves `entries` and
`filteredEntries` as they were (empty, from the constructor), and shows an
error message. -/
theorem loadGraphData_index_failure (s : GraphLibrary) (site : Site) (pageSize : Int)
    (schedule : Schedule) (hfail : fetchFails (site.fetch indexUrl) = true) :
    (loadGraphData s site pageSize schedule).requests = [indexUrl] ∧
    (loadGraphData s site pageSize schedule).state.entries = s.entries ∧
    (loadGraphData s site pageSize schedule).state.filteredEntries = s.filteredEntries ∧
    (∃ e, (loadGraphData s site pageSize schedule).error = some e) ∧
    (loadGraphData s site pageSize schedule).loading = false ∧
    (s = constructed →
      (loadGraphData s site pageSize schedule).state.entries = [] ∧
      (loadGraphData s site pageSize schedule).state.filteredEntries = []) := by
  have hout : ∃ e, loadGraphData s site pageSize schedule = failLoad s e [indexUrl] := by
    unfold loadGraphData
    cases hf : site.fetch indexUrl with
    | networkError => exact ⟨_, rfl⟩
    | response status body =>
      rw [hf] at hfail
      have hok : statusOk status = false := by simpa [fetchFails] using hfail
      simp only [hok]
      exact ⟨_, rfl⟩
  obtain ⟨e, he⟩ := hout
  rw [he]
  refine ⟨rfl, rfl, rfl, ⟨e, rfl⟩, rfl, ?_⟩
  intro hs
  subst hs
  exact ⟨rfl, rfl⟩

theorem loadGraphData_index_failure_witness :
    (loadGraphData constructed noIndexSite 12 inOrder).error = some (LoadError.badStatus 404) ∧
    ((loadGraphData constructed noIndexSite 12 inOrder).requests = [indexUrl] ∧
    (loadGraphData constructed noIndexSite 12 inOrder).state.entries = constructed.entries ∧
    (loadGraphData constructed noIndexSite 12 inOrder).state.filteredEntries
      = constructed.filteredEntries ∧
    (∃ e, (loadGraphData constructed noIndexSite 12 inOrder).error = some e) ∧
    (loadGraphData constructed noIndexSite 12 inOrder).loading = false ∧
    (constructed = constructed →
      (loadGraphData constructed noIndexSite 12 inOrder).state.entries = [] ∧
      (loadGraphData constructed noIndexSite 12 inOrder).state.filteredEntries = [])) :=
  ⟨by decide, loadGraphData_index_failure constructed noIndexSite 12 inOrder (by decide)⟩

/-- C17: if the manifest fetch of one group, or the payload fetch of one
version of one group, fails or returns a non-success status, `loadGraphData`
loads no entries at all: `entries` and `filteredEntries` stay as they were
(empty, from the constructor), also for the groups whose fetches all succeeded,
and an error message is shown. -/
theorem loadGraphData_group_failure (s : GraphLibrary) (site : Site) (pageSize : Int)
    (schedule : Schedule) (graphNames : List JSString)
    (hindex : ∃ status body, site.fetch indexUrl = FetchResult.response status body ∧
      statusOk status = true ∧ site.parseIndex body = some graphNames)
    (i : Nat) (name : JSString) (hname : graphNames[i]? = some name)
    (hsettles : i ∈ schedule.groups)
    (hfail : fetchFails (site.fetch (manifestUrl name)) = true ∨
      ∃ status body generalData j version,
        site.fetch (manifestUrl name) = FetchResult.response status body ∧
        statusOk status = true ∧ site.parseManifest body = some generalData ∧
        generalData.graphs[j]? = some version ∧ j ∈ schedule.versions i ∧
        fetchFails (site.fetch (payloadUrl name version)) = true) :
    (loadGraphData s site pageSize schedule).state.entries = s.entries ∧
    (loadGraphData s site pageSize schedule).state.filteredEntries = s.filteredEntries ∧
    (∃ e, (loadGraphData s site pageSize schedule).error = some e) ∧
    (loadGraphData s site pageSize schedule).loading = false ∧
    (s = constructed →
      (loadGraphData s site pageSize schedule).state.entries = [] ∧
      (loadGraphData s site pageSize schedule).state.filteredEntries = []) := by
  obtain ⟨status, body, hfetch, hok, hparse⟩ := hindex
  obtain ⟨e, he⟩ := entryPromise_rejected site (schedule.versions i) name hfail
  have hget : (mapFrom (fun i graphName => entryPromise site (schedule.versions i) graphName)
      0 graphNames)[i]? = some (Promise.rejected e) := by
    rw [getElem?_mapFrom, hname, Nat.zero_add]
    simp [he]
  obtain ⟨e', he'⟩ := promiseAll_rejected _ schedule.groups i e hsettles hget
  have hout : ∃ requests, loadGraphData s site pageSize schedule = failLoad s e' requests := by
    unfold loadGraphData
    simp only [hfetch, hok, if_true, hparse, he']
    exact ⟨_, rfl⟩
  obtain ⟨requests, hreq⟩ := hout
  rw [hreq]
  refine ⟨rfl, rfl, ⟨e', rfl⟩, rfl, ?_⟩
  intro hs
  subst hs
  exact ⟨rfl, rfl⟩

theorem loadGraphData_group_failure_witness :
    (loadGraphData constructed noScalePayloadSite 12 reversed).error
      = some LoadError.fetchRejected ∧
    ((loadGraphData constructed noScalePayloadSite 12 reversed).state.entries
      = constructed.entries ∧
    (loadGraphData constructed noScalePayloadSite 12 reversed).state.filteredEntries
      = constructed.filteredEntries ∧
    (∃ e, (loadGraphData constructed noScalePayloadSite 12 reversed).error = some e) ∧
    (loadGraphData constructed noScalePayloadSite 12 reversed).loading = false ∧
    (constructed = constructed →
      (loadGraphData constructed noScalePayloadSite 12 reversed).state.entries = [] ∧
      (loadGraphData constructed noScalePayloadSite 12 reversed).state.filteredEntries = [])) :=
  ⟨by decide,
    loadGraphData_group_failure constructed noScalePayloadSite 12 reversed
      [utf16 "scale", utf16 "crop"]
      ⟨200, utf16 "\x7b\"graphs\":[\"scale\",\"crop\"]\x7d", by decide, by decide, by decide⟩
      0 (utf16 "scale") (by decide) (by decide)
      (Or.inr ⟨200, utf16 "scale.json", scaleManifest, 1, utf16 "6.0",
        by decide, by decide, by decide, by decide, by decide, by decide⟩)⟩

/-- No card of an entry without versions is ever in the container that
`renderEntries` leaves. -/
theorem appendCards_versions :
    ∀ (xs : List Entry), ∀ e ∈ (appendCards xs).1, e.versions ≠ []
  | [], e, he => by simp [appendCards] at he
  | x :: xs, e, he => by
    unfold appendCards createEntryElement createGraphInputContainer at he
    cases hv : x.versions with
    | nil => rw [hv] at he; simp at he
    | cons v vs =>
      rw [hv] at he
      simp only [List.mem_cons] at he
      rcases he with rfl | he
      · rw [hv]; simp
      · exact appendCards_versions xs e he

/-- C18 (the code departs from the claim): on `bareSite` every fetch succeeds
and the manifest of the group `bare` lists no version.  `loadGraphData` stores
an entry with an empty `versions` list in `entries` and `filteredEntries`;
rendering then throws at `entry.versions[0]`, the error message is shown and
the container is emptied, so no entry at all is displayed. -/
theorem loadGraphData_stores_versionless_entry :
    (loadGraphData constructed bareSite 12 inOrder).state.entries.map (fun e => e.versions.length)
      = [1, 0] ∧
    (loadGraphData constructed bareSite 12 inOrder).state.filteredEntries
      = (loadGraphData constructed bareSite 12 inOrder).state.entries ∧
    (loadGraphData constructed bareSite 12 inOrder).error = some LoadError.renderFailed ∧
    (loadGraphData constructed bareSite 12 inOrder).state.container = [] := by
  decide

/-! ## Version selector: settled claims -/

/-- C19 (the code departs from the claim): `scaleCard` is the card created for
`scaleEntry`.  After a change event that selects version 6.0 the text field
shows the payload of 6.0 wrapped in double quotes, as `JSON.stringify` renders
a string, not the payload itself, and one click on the copy button passes two
texts to the clipboard: the payload of version 7.1 captured at creation, then
the quoted text.  Re-selecting the first version likewise shows its payload in
quotes. -/
theorem change_event_shows_stringified_payload :
    createEntryElement scaleEntry = Except.ok scaleCard ∧
    scaleEntry.versions.map (fun v => v.graphData)
      = [utf16 "[0:v]scale=1280:720[out]", utf16 "[0:v]scale=w=1280:h=720[out]"] ∧
    (scaleCard.changeVersion (utf16 "6.0")).inputValue
      = utf16 "\"[0:v]scale=w=1280:h=720[out]\"" ∧
    (scaleCard.changeVersion (utf16 "6.0")).inputValue
      ≠ utf16 "[0:v]scale=w=1280:h=720[out]" ∧
    (scaleCard.changeVersion (utf16 "6.0")).copyClick
      = [utf16 "[0:v]scale=1280:720[out]", utf16 "\"[0:v]scale=w=1280:h=720[out]\""] ∧
    (scaleCard.changeVersion (utf16 "7.1")).inputValue
      = utf16 "\"[0:v]scale=1280:720[out]\"" := by
  decide

/-! ## Search debounce: settled claims -/

theorem inputEvent_debounced (b : SearchBox) (t : Nat) (v : JSString) (event : Nat × JSString)
    (h : Debounced b t v) (hlate : event.1 < t + 300) :
    Debounced (inputEvent b event) event.1 event.2 := by
  obtain ⟨_, _, hs, id, hid, htimers⟩ := h
  refine ⟨rfl, rfl, ?_, b.nextTimerId, rfl, ?_⟩
  · show b.searches ++ _ = []
    rw [hs, htimers]
    simp [Nat.not_le.2 hlate]
  · show clearTimeout b.searchTimeout (b.timers.filter _) ++ [(b.nextTimerId, event.1 + 300)] = _
    rw [hid, htimers]
    simp [clearTimeout, Nat.not_le.2 hlate]

theorem inputEvent_fresh (event : Nat × JSString) :
    Debounced (inputEvent freshSearchBox event) event.1 event.2 :=
  ⟨rfl, rfl, rfl, 1, rfl, rfl⟩

theorem foldl_debounced :
    ∀ (events : List (Nat × JSString)) (b : SearchBox) (first last : Nat × JSString),
      Debounced b first.1 first.2 →
      List.Chain (fun a c => a.1 ≤ c.1 ∧ c.1 < a.1 + 300) first events →
      (first :: events).getLast? = some last →
      Debounced (events.foldl inputEvent b) last.1 last.2
  | [], b, first, last, h, _, hlast => by
    simp only [List.getLast?_singleton, Option.some.injEq] at hlast
    subst hlast
    exact h
  | event :: rest, b, first, last, h, hchain, hlast => by
    rw [List.chain_cons] at hchain
    have hstep := inputEvent_debounced b first.1 first.2 event h hchain.1.2
    rw [List.getLast?_cons_cons] at hlast
    exact foldl_debounced rest (inputEvent b event) event last hstep hchain.2 hlast

theorem afterEvents_debounced (events : List (Nat × JSString))
    (hburst : List.Chain' (fun a c => a.1 ≤ c.1 ∧ c.1 < a.1 + 300) events)
    (last : Nat × JSString) (hlast : events.getLast? = some last) :
    Debounced (afterEvents events) last.1 last.2 := by
  cases events with
  | nil => simp at hlast
  | cons first rest =>
    exact foldl_debounced rest (inputEvent freshSearchBox first) first last
      (inputEvent_fresh first) hburst hlast

theorem afterEvents_timers_le_one (events : List (Nat × JSString))
    (hburst : List.Chain' (fun a c => a.1 ≤ c.1 ∧ c.1 < a.1 + 300) events) :
    (afterEvents events).timers.length ≤ 1 := by
  cases hl : events.getLast? with
  | none =>
    rw [List.getLast?_eq_none_iff] at hl
    subst hl
    decide
  | some last =>
    obtain ⟨_, _, _, id, _, htimers⟩ := afterEvents_debounced events hburst last hl
    rw [htimers]
    simp

/-- C20: for every burst of search-input events in which each event follows the
previous one by less than 300 ms, `handleSearchInput` causes exactly one
`performSearch` invocation, 300 ms after the last event, on the final input
value; each event cancels the timer pending before it, so that at most one
timer is pending after any number of the events. -/
theorem debounce_single_search (events : List (Nat × JSString))
    (hburst : List.Chain' (fun a c => a.1 ≤ c.1 ∧ c.1 < a.1 + 300) events)
    (last : Nat × JSString) (hlast : events.getLast? = some last) :
    (settle (afterEvents events)).searches = [(last.1 + 300, last.2)] ∧
    (afterEvents events).searches = [] ∧
    (∀ k, (afterEvents (events.take k)).timers.length ≤ 1) := by
  obtain ⟨_, hvalue, hsearches, id, _, htimers⟩ := afterEvents_debounced events hburst last hlast
  refine ⟨?_, hsearches, fun k => afterEvents_timers_le_one _ (hburst.take k)⟩
  show (afterEvents events).searches ++ _ = _
  rw [hsearches, htimers, hvalue]
  rfl

theorem debounce_single_search_witness :
    (settle (afterEvents threeKeystrokes)).searches = [(1200 + 300, utf16 "h26")] ∧
    (afterEvents threeKeystrokes).searches = [] ∧
    (∀ k, (afterEvents (threeKeystrokes.take k)).timers.length ≤ 1) :=
  debounce_single_search threeKeystrokes (by simp [threeKeystrokes])
    (1200, utf16 "h26") (by decide)

/-! ## Frame properties: supporting lemmas -/

/-- `renderEntries` followed, if it returns, by `updatePagination` leaves the
lists and the page size alone. -/
theorem render_then_paginate_frame (s : GraphLibrary) :
    ((renderEntries s).next updatePagination).state.entries = s.entries ∧
    ((renderEntries s).next updatePagination).state.filteredEntries = s.filteredEntries ∧
    ((renderEntries s).next updatePagination).state.entriesPerPage = s.entriesPerPage := by
  by_cases hr : (renderEntries s).error = none
  · rw [next_state_of_returns _ _ hr]
    exact ⟨rfl, rfl, rfl⟩
  · rw [next_state_of_throws _ _ hr]
    exact ⟨rfl, rfl, rfl⟩

theorem performSearch_entries (lower : JSString → JSString) (s : GraphLibrary)
    (input : JSString) : (performSearch lower s input).state.entries = s.entries := by
  cases hf : (if trim (lower input) = [] then Except.ok s.entries
      else filterE (entryMatches lower (trim (lower input))) s.entries) with
  | ok es => exact (performSearch_state_of_filter_ok lower s input es hf).2.2.1
  | error e => rw [performSearch_of_filter_error lower s input e hf]

/-! ## Frame properties: settled claims -/

/-- C24: `goToPage(p)`, for every `p`, leaves the active filter untouched:
`filteredEntries`, `entries` and `entriesPerPage` are the same after the call
as before, whether it returns or throws. -/
theorem goToPage_frame (s : GraphLibrary) (p : Int) :
    (goToPage s p).state.filteredEntries = s.filteredEntries ∧
    (goToPage s p).state.entries = s.entries ∧
    (goToPage s p).state.entriesPerPage = s.entriesPerPage := by
  have h := render_then_paginate_frame { s with currentPage := p }
  exact ⟨h.2.1, h.1, h.2.2⟩

/-- C25: none of `performSearch`, `handlePageSizeChange`, `goToPage`,
`getCurrentPageEntries` and `updatePagination` changes the `entries` list:
after any sequence of these operations `entries` is the list it was before the
sequence, element for element. -/
theorem operations_preserve_entries (lower : JSString → JSString) (ops : List Operation) :
    ∀ s : GraphLibrary, (ops.foldl (Operation.run lower) s).entries = s.entries := by
  induction ops with
  | nil => intro s; rfl
  | cons op rest ih =>
    intro s
    rw [List.foldl_cons, ih]
    cases op with
    | performSearch input => exact performSearch_entries lower s input
    | handlePageSizeChange pageSize =>
      exact (render_then_paginate_frame
        { s with entriesPerPage := pageSize, currentPage := 1 }).1
    | goToPage page => exact (goToPage_frame s page).2.1
    | getCurrentPageEntries => rfl
    | updatePagination => rfl

/-- C27: for every state with `1 ≤ currentPage ≤ totalPages`, the numbered
buttons that `updatePageNumbers` renders are the pages `first .. last` of a run
of consecutive page numbers of length exactly `min(5, totalPages)` that lies
inside `[1, totalPages]` and contains `currentPage`. -/
theorem updatePageNumbers_run (s : GraphLibrary) (hlo : 1 ≤ s.currentPage)
    (hhi : s.currentPage ≤ s.totalPages) :
    ∃ first last : Int,
      numberedButtons (updatePageNumbers s) = pagesFromTo first last ∧
      List.Chain' (fun x y => y = x + 1) (numberedButtons (updatePageNumbers s)) ∧
      ((numberedButtons (updatePageNumbers s)).length : Int) = min 5 s.totalPages ∧
      1 ≤ first ∧ last ≤ s.totalPages ∧
      (∀ page ∈ numberedButtons (updatePageNumbers s), 1 ≤ page ∧ page ≤ s.totalPages) ∧
      s.currentPage ∈ numberedButtons (updatePageNumbers s) := by
  obtain ⟨h1, h2, h3, h4, h5⟩ := pageWindow_bounds s hlo hhi
  have hnum := numberedButtons_updatePageNumbers s (by omega)
  refine ⟨(pageWindow s).1, (pageWindow s).2, hnum, ?_, ?_, h1, h4, ?_, ?_⟩
  · rw [hnum]; exact pagesFromTo_consecutive _ _
  · rw [hnum, length_pagesFromTo]; omega
  · intro page hpage
    rw [hnum, mem_pagesFromTo] at hpage
    omega
  · rw [hnum, mem_pagesFromTo]
    exact ⟨h2, h3⟩

theorem updatePageNumbers_run_witness :
    numberedButtons (updatePageNumbers endBar) = [16, 17, 18, 19, 20] ∧
    ∃ first last : Int,
      numberedButtons (updatePageNumbers endBar) = pagesFromTo first last ∧
      List.Chain' (fun x y => y = x + 1) (numberedButtons (updatePageNumbers endBar)) ∧
      ((numberedButtons (updatePageNumbers endBar)).length : Int) = min 5 endBar.totalPages ∧
      1 ≤ first ∧ last ≤ endBar.totalPages ∧
      (∀ page ∈ numberedButtons (updatePageNumbers endBar),
        1 ≤ page ∧ page ≤ endBar.totalPages) ∧
      endBar.currentPage ∈ numberedButtons (updatePageNumbers endBar) :=
  ⟨by decide, updatePageNumbers_run endBar (by decide) (by decide)⟩

/-- C29: the click listener that `createCopyButton` registers with the text of
the first version is never removed.  For every entry with a version and every
change event whose selected version is found, one click on the copy button
invokes `handleCopy` twice: first with the text captured at creation (the value
of the field showing the first version's `graphData`), then with the value
the field displays now. -/
theorem copy_click_after_change (entry : Entry) (firstVersion : Version) (others : List Version)
    (selectedVersion : JSString) (selectedGraph : Version)
    (hversions : entry.versions = firstVersion :: others)
    (hfound : entry.versions.find? (fun v => v.version == selectedVersion)
      = some selectedGraph) :
    ∃ card, createEntryElement entry = Except.ok card ∧
      card.copyClick = [textInputValue firstVersion.graphData] ∧
      (card.changeVersion selectedVersion).copyClick
        = [textInputValue firstVersion.graphData, (card.changeVersion selectedVersion).inputValue] ∧
      (card.changeVersion selectedVersion).copyClick.length = 2 ∧
      ((∀ c ∈ firstVersion.graphData, c ≠ 10 ∧ c ≠ 13) →
        textInputValue firstVersion.graphData = firstVersion.graphData) := by
  refine ⟨Card.mk entry (textInputValue firstVersion.graphData)
    (textInputValue firstVersion.graphData) false, ?_, rfl, ?_, ?_, ?_⟩
  · unfold createEntryElement createGraphInputContainer
    rw [hversions]
  · unfold Card.changeVersion
    simp only [hfound]
    rfl
  · unfold Card.changeVersion
    simp only [hfound]
    rfl
  · intro hplain
    unfold textInputValue
    rw [List.filter_eq_self]
    intro c hc
    have := hplain c hc
    simp [this.1, this.2]

theorem copy_click_after_change_witness :
    ∃ card, createEntryElement scaleEntry = Except.ok card ∧
      card.copyClick = [textInputValue (utf16 "[0:v]scale=1280:720[out]")] ∧
      (card.changeVersion (utf16 "6.0")).copyClick
        = [textInputValue (utf16 "[0:v]scale=1280:720[out]"),
            (card.changeVersion (utf16 "6.0")).inputValue] ∧
      (card.changeVersion (utf16 "6.0")).copyClick.length = 2 ∧
      ((∀ c ∈ utf16 "[0:v]scale=1280:720[out]", c ≠ 10 ∧ c ≠ 13) →
        textInputValue (utf16 "[0:v]scale=1280:720[out]") = utf16 "[0:v]scale=1280:720[out]") :=
  copy_click_after_change scaleEntry
    { version := utf16 "7.1", graphData := utf16 "[0:v]scale=1280:720[out]" }
    [{ version := utf16 "6.0", graphData := utf16 "[0:v]scale=w=1280:h=720[out]" }]
    (utf16 "6.0")
    { version := utf16 "6.0", graphData := utf16 "[0:v]scale=w=1280:h=720[out]" }
    (by decide) (by decide)

/-! ## Clipboard: settled claims -/

/-- C22: for every text, `handleCopy` invokes `fallbackCopy` if and only if the
primary clipboard write does not succeed (it throws, rejects or is
unavailable); the fallback then gets the same text, and the success
confirmation is shown exactly once in every case. -/
theorem handleCopy_fallback (primary : ClipboardWrite) (text : JSString) :
    ((handleCopy primary text).fallbackCopy ≠ none ↔ primary ≠ ClipboardWrite.fulfilled) ∧
    (primary ≠ ClipboardWrite.fulfilled →
      (handleCopy primary text).fallbackCopy = some text) ∧
    (handleCopy primary text).confirmations = 1 := by
  cases primary <;> simp [handleCopy, fallbackCopy]

theorem handleCopy_fallback_witness :
    (handleCopy ClipboardWrite.threw (utf16 "[0:v]hflip[out]")).fallbackCopy
      = some (utf16 "[0:v]hflip[out]") ∧
    (handleCopy ClipboardWrite.threw (utf16 "[0:v]hflip[out]")).confirmations = 1 :=
  ⟨(handleCopy_fallback ClipboardWrite.threw (utf16 "[0:v]hflip[out]")).2.1 (by decide),
    (handleCopy_fallback ClipboardWrite.threw (utf16 "[0:v]hflip[out]")).2.2⟩

/-- C23 (counterexample to the claim as stated): after successful copies at
1000 ms and 2000 ms two revert callbacks are pending; at 3500 ms, inside the
2000 ms window of the second copy, the button is idle again, because the
callback of the first copy reverted it at 3000 ms. -/
theorem second_copy_does_not_restart_timer :
    ((idleButton.copyAt 1000).copyAt 2000).timers = [3000, 4000] ∧
    (((idleButton.copyAt 1000).copyAt 2000).advance 2999).success = true ∧
    (((idleButton.copyAt 1000).copyAt 2000).advance 3000).success = false ∧
    (((idleButton.copyAt 1000).copyAt 2000).advance 3500).success = false := by
  decide

/-- C23 (amended): after a successful copy at `t1` the button shows the
confirmation for exactly 2000 ms and then reverts to idle; a second successful
copy at `t2` inside that window does not cancel the pending callback, so the
button still shows the confirmation until `t1 + 2000` and is idle from then
on, also before `t2 + 2000`. -/
theorem copy_confirmation_window (t1 t2 : Nat) (h12 : t1 ≤ t2) (hin : t2 < t1 + 2000) :
    (∀ t, t1 ≤ t →
      ((idleButton.copyAt t1).advance t).success = decide (t < t1 + 2000)) ∧
    (∀ t, t2 ≤ t →
      (((idleButton.copyAt t1).copyAt t2).advance t).success = decide (t < t1 + 2000)) := by
  have h1 : ¬ (t1 + 2000 ≤ t2) := by omega
  constructor
  · intro t _
    by_cases h : t < t1 + 2000
    · have ha : ¬ (t1 + 2000 ≤ t) := by omega
      simp [CopyButton.copyAt, CopyButton.advance, showCopySuccess, idleButton, h, ha]
    · have ha : t1 + 2000 ≤ t := by omega
      simp [CopyButton.copyAt, CopyButton.advance, showCopySuccess, idleButton, h, ha]
  · intro t _
    by_cases h : t < t1 + 2000
    · have ha : ¬ (t1 + 2000 ≤ t) := by omega
      have hb : ¬ (t2 + 2000 ≤ t) := by omega
      simp [CopyButton.copyAt, CopyButton.advance, showCopySuccess, idleButton, h1, h, ha, hb]
    · have ha : t1 + 2000 ≤ t := by omega
      simp [CopyButton.copyAt, CopyButton.advance, showCopySuccess, idleButton, h1, h, ha]

theorem copy_confirmation_window_witness :
    ((idleButton.copyAt 1000).advance 2999).success = decide (2999 < 1000 + 2000) ∧
    (((idleButton.copyAt 1000).copyAt 2000).advance 3500).success
      = decide (3500 < 1000 + 2000) :=
  ⟨(copy_confirmation_window 1000 2000 (by decide) (by decide)).1 2999 (by decide),
    (copy_confirmation_window 1000 2000 (by decide) (by decide)).2 3500 (by decide)⟩

/-! ## Clear action: settled claims -/

/-- C21 (counterexample to the claim as stated): `ownDemo` is filtered by the
query typed at 1000 ms; the Escape key at 5000 ms empties the input but runs no
search in that event: the only search so far is the typed one, `filteredEntries`
still is the filtered list, and a timer due at 5300 ms is pending.  Only when it
fires is `filteredEntries` reset to all entries. -/
theorem escape_does_not_search_at_once :
    (escapeKey typedScale 5000).value = [] ∧
    (escapeKey typedScale 5000).searches = [(1300, utf16 " Scale ")] ∧
    (libraryAfter asciiLower ownDemo (escapeKey typedScale 5000).searches).filteredEntries
      ≠ ownDemo.entries ∧
    (escapeKey typedScale 5000).timers = [(2, 5300)] ∧
    (settle (escapeKey typedScale 5000)).searches = [(1300, utf16 " Scale "), (5300, [])] ∧
    (libraryAfter asciiLower ownDemo
      (settle (escapeKey typedScale 5000)).searches).filteredEntries = ownDemo.entries := by
  decide

theorem typedScale_singleTimer : SingleTimer typedScale :=
  Or.inr ⟨1, 1300, rfl, rfl⟩

/-- C21 (amended): the explicit clear action (pressing Escape in the search
input) empties the input in the same event and goes through the same 300 ms
debounce as typing: the event itself runs no search, it cancels the pending
timer and leaves one timer due 300 ms later; when that timer fires,
`performSearch` reads the empty value and resets `filteredEntries` to all
entries. -/
theorem escape_is_debounced (lower : JSString → JSString)
    (hlower : ∀ q, isBlank q = true → isBlank (lower q) = true)
    (b : SearchBox) (t : Nat) (hsingle : SingleTimer b) :
    (escapeKey b t).value = [] ∧
    (escapeKey b t).searches = (runTimersUntil b t).searches ∧
    (escapeKey b t).timers = [(b.nextTimerId, t + 300)] ∧
    (settle (escapeKey b t)).searches = (runTimersUntil b t).searches ++ [(t + 300, [])] ∧
    (∀ s : GraphLibrary,
      (performSearch lower s (escapeKey b t).value).state.filteredEntries = s.entries) := by
  have htimers : (escapeKey b t).timers = [(b.nextTimerId, t + 300)] := by
    show clearTimeout b.searchTimeout (b.timers.filter _) ++ [(b.nextTimerId, t + 300)] = _
    rcases hsingle with h | ⟨id, due, hid, h⟩
    · rw [h]
      cases b.searchTimeout <;> simp [clearTimeout]
    · rw [h, hid]
      by_cases hdue : due ≤ t <;> simp [clearTimeout, hdue]
  refine ⟨rfl, rfl, htimers, ?_, ?_⟩
  · show (escapeKey b t).searches ++ (escapeKey b t).timers.map _ = _
    rw [htimers]
    rfl
  · intro s
    have hquery : trim (lower []) = [] := trim_of_isBlank (hlower [] rfl)
    have hfil : (if trim (lower []) = [] then Except.ok s.entries
        else filterE (entryMatches lower (trim (lower []))) s.entries)
          = Except.ok s.entries := by
      simp only [hquery, if_true]
    exact (performSearch_state_of_filter_ok lower s [] s.entries hfil).1

theorem escape_is_debounced_witness :
    (escapeKey typedScale 5000).value = [] ∧
    (escapeKey typedScale 5000).searches = (runTimersUntil typedScale 5000).searches ∧
    (escapeKey typedScale 5000).timers = [(typedScale.nextTimerId, 5000 + 300)] ∧
    (settle (escapeKey typedScale 5000)).searches
      = (runTimersUntil typedScale 5000).searches ++ [(5000 + 300, [])] ∧
    (∀ s : GraphLibrary,
      (performSearch asciiLower s (escapeKey typedScale 5000).value).state.filteredEntries
        = s.entries) :=
  escape_is_debounced asciiLower asciiLower_isBlank typedScale 5000 typedScale_singleTimer

/-! ## Content loader: settled claims -/

/-- When `links.json` was loaded, `populatePage` returns and populates exactly the
sections whose own file was loaded. -/
theorem populatePage_with_links (cache : ContentCache) (hlinks : cache.links = true) :
    (populatePage cache).2 = none ∧
    (PageSection.siteConfig ∈ (populatePage cache).1 ↔ cache.siteConfig = true) ∧
    (PageSection.features ∈ (populatePage cache).1 ↔ cache.features = true) ∧
    (PageSection.tutorials ∈ (populatePage cache).1 ↔ cache.tutorials = true) ∧
    (PageSection.downloads ∈ (populatePage cache).1 ↔ cache.downloads ≠ none) := by
  obtain ⟨c, f, u, d, l⟩ := cache
  simp only at hlinks
  subst hlinks
  cases c <;> cases f <;> cases u <;> cases d <;>
    simp [populatePage, populateSiteConfig, populateDownloads]

/-- C26 (the code departs from the claim): with every content file loaded
except `links.json`, `populatePage` throws a `TypeError` in
`populateSiteConfig` and populates no section at all, although `features.json`,
`tutorials.json` and `downloads.json` were loaded; without `site-config.json`
too, a loaded `downloads.json` with platforms still makes it throw. -/
theorem populatePage_throws_without_links :
    noLinksCache.features = true ∧ noLinksCache.tutorials = true ∧
    populatePage noLinksCache = ([], some JSError.typeError) ∧
    populatePage { noLinksCache with siteConfig := false }
      = ([PageSection.features, PageSection.tutorials], some JSError.typeError) ∧
    populatePage featuresOnlyCache
      = ([PageSection.features, PageSection.tutorials], none) := by
  decide

/-! ## Navigation controls: supporting lemmas -/

theorem updatePagination_idempotent (s : GraphLibrary) :
    updatePagination (updatePagination s) = updatePagination s := by
  unfold updatePagination
  simp only [GraphLibrary.mk.injEq, true_and, and_true]
  omega

/-- In a page in step with its fields, every enabled control requests a page in
`[1, totalPages]`. -/
theorem synced_target_in_range (page : Page) (hsync : page.Synced)
    (hps : 0 < page.lib.entriesPerPage) (event : UIEvent) (p : Int)
    (htarget : page.target event = some p) : 1 ≤ p ∧ p ≤ page.lib.totalPages := by
  obtain ⟨hfix, hdraw⟩ := hsync
  have htp : ceilDiv page.lib.filteredEntries.length page.lib.entriesPerPage
      = page.lib.totalPages := congrArg GraphLibrary.totalPages hfix
  have hcp : max 1 (min page.lib.currentPage
      (ceilDiv page.lib.filteredEntries.length page.lib.entriesPerPage))
        = page.lib.currentPage := congrArg GraphLibrary.currentPage hfix
  have h0 : 0 ≤ page.lib.totalPages := by
    rw [← htp]; exact ceilDiv_nonneg _ _ (Int.ofNat_nonneg _) hps
  rw [htp] at hcp
  have hbuttons : page.buttons = updatePaginationButtons page.lib :=
    congrArg Page.buttons hdraw
  have hnumbers : page.pageNumbers = updatePageNumbers page.lib :=
    congrArg Page.pageNumbers hdraw
  cases event with
  | search v => simp [Page.target] at htarget
  | pageSize n => simp [Page.target] at htarget
  | first =>
    simp only [Page.target, hbuttons, updatePaginationButtons] at htarget
    split at htarget
    · simp at htarget
    · next hne =>
      simp only [Option.some.injEq] at htarget
      simp only [beq_iff_eq] at hne
      omega
  | prev =>
    simp only [Page.target, hbuttons, updatePaginationButtons] at htarget
    split at htarget
    · simp at htarget
    · next hne =>
      simp only [Option.some.injEq] at htarget
      simp only [beq_iff_eq] at hne
      omega
  | next =>
    simp only [Page.target, hbuttons, updatePaginationButtons] at htarget
    split at htarget
    · simp at htarget
    · next hne =>
      simp only [Option.some.injEq] at htarget
      simp only [Bool.or_eq_true, beq_iff_eq, not_or] at hne
      omega
  | last =>
    simp only [Page.target, hbuttons, updatePaginationButtons] at htarget
    split at htarget
    · simp at htarget
    · next hne =>
      simp only [Option.some.injEq] at htarget
      simp only [Bool.or_eq_true, beq_iff_eq, not_or] at hne
      omega
  | number q =>
    simp only [Page.target, hnumbers] at htarget
    split at htarget
    · next hmem =>
      simp only [Option.some.injEq] at htarget
      subst htarget
      by_cases hzero : page.lib.totalPages = 0
      · simp [updatePageNumbers, hzero, numberedButtons] at hmem
      · have hlo : 1 ≤ page.lib.currentPage := by omega
        have hhi : page.lib.currentPage ≤ page.lib.totalPages := by omega
        obtain ⟨h1, _, _, h4, _⟩ := pageWindow_bounds page.lib hlo hhi
        rw [numberedButtons_updatePageNumbers _ hzero, mem_pagesFromTo] at hmem
        omega
    · simp at htarget

theorem render_then_paginate_returns (s : GraphLibrary)
    (h : ∀ e ∈ s.filteredEntries, e.versions ≠ []) :
    (renderEntries s).next updatePagination
      = { state := updatePagination { s with container := getCurrentPageEntries s }
          error := none } := by
  rw [renderEntries_returns s h]
  rfl

theorem good_draw (s : GraphLibrary) (hps : 0 < s.entriesPerPage)
    (hversions : ∀ e ∈ s.entries, e.versions ≠ []) (hsub : s.filteredEntries ⊆ s.entries) :
    (Page.draw (updatePagination s)).Good :=
  ⟨⟨updatePagination_idempotent s, rfl⟩, hps, hversions, hsub⟩

/-- On a catalog that respects the data model every event leaves the page in
step with its fields. -/
theorem step_good (lower : JSString → JSString) (page : Page) (event : UIEvent)
    (hgood : page.Good) (hvalid : event.Valid) : (page.step lower event).Good := by
  obtain ⟨hsync, hps, hversions, hsub⟩ := hgood
  have hfiltered : ∀ e ∈ page.lib.filteredEntries, e.versions ≠ [] :=
    fun e he => hversions e (hsub he)
  have hgo : ∀ p : Int, (Page.step lower page event = match
      (some (goToPage page.lib p) : Option Outcome) with
      | none => page
      | some outcome =>
        match outcome.error with
        | none => Page.draw outcome.state
        | some _ => { page with lib := outcome.state }) →
      (page.step lower event).Good := by
    intro p hstep
    rw [hstep]
    have hout : goToPage page.lib p
        = { state := updatePagination
              { page.lib with currentPage := p,
                              container := getCurrentPageEntries { page.lib with currentPage := p } }
            error := none } :=
      render_then_paginate_returns { page.lib with currentPage := p } hfiltered
    simp only [hout]
    exact good_draw _ hps hversions hsub
  have hnone : Page.step lower page event = page → (page.step lower event).Good := by
    intro h
    rw [h]
    exact ⟨hsync, hps, hversions, hsub⟩
  have hbutton : ∀ ev : UIEvent, event = ev →
      Page.call lower page ev = (page.target ev).map (goToPage page.lib) →
      (page.step lower event).Good := by
    intro ev hev hcall
    subst hev
    cases ht : page.target event with
    | none =>
      apply hnone
      unfold Page.step
      rw [hcall, ht]
      rfl
    | some p =>
      apply hgo p
      unfold Page.step
      rw [hcall, ht]
      rfl
  cases event with
  | search v =>
    cases hf : (if trim (lower v) = [] then Except.ok page.lib.entries
        else filterE (entryMatches lower (trim (lower v))) page.lib.entries) with
    | error e =>
      apply hnone
      unfold Page.step Page.call
      simp only [performSearch_of_filter_error lower page.lib v e hf]
    | ok es =>
      have hes := search_filter_sublist lower page.lib v es hf
      have hout : performSearch lower page.lib v
          = { state := updatePagination
                { page.lib with
                  filteredEntries := es, currentPage := 1,
                  container := getCurrentPageEntries
                    { page.lib with filteredEntries := es, currentPage := 1 } }
              error := none } := by
        rw [performSearch_of_filter_ok lower page.lib v es hf]
        exact render_then_paginate_returns
          { page.lib with filteredEntries := es, currentPage := 1 }
          fun e he => hversions e (hes.subset he)
      unfold Page.step Page.call
      simp only [hout]
      exact good_draw _ hps hversions hes.subset
  | pageSize n =>
    have hout : handlePageSizeChange page.lib n
        = { state := updatePagination
              { page.lib with
                entriesPerPage := n, currentPage := 1,
                container := getCurrentPageEntries
                  { page.lib with entriesPerPage := n, currentPage := 1 } }
            error := none } :=
      render_then_paginate_returns { page.lib with entriesPerPage := n, currentPage := 1 }
        hfiltered
    unfold Page.step Page.call
    simp only [hout]
    exact good_draw _ (show 0 < n from hvalid) hversions hsub
  | first => exact hbutton _ rfl rfl
  | prev => exact hbutton _ rfl rfl
  | next => exact hbutton _ rfl rfl
  | last => exact hbutton _ rfl rfl
  | number q => exact hbutton _ rfl rfl

/-- On a catalog that respects the data model, after any sequence of events
every enabled control requests a page in `[1, totalPages]`. -/
theorem good_run_target_in_range (lower : JSString → JSString) (events : List UIEvent) :
    ∀ (page : Page), page.Good → (∀ event ∈ events, event.Valid) →
      ∀ (event : UIEvent) (p : Int),
        (events.foldl (Page.step lower) page).target event = some p →
        1 ≤ p ∧ p ≤ (events.foldl (Page.step lower) page).lib.totalPages := by
  induction events with
  | nil =>
    intro page hgood _ event p htarget
    exact synced_target_in_range page hgood.1 hgood.2.1 event p htarget
  | cons head rest ih =>
    intro page hgood hvalid event p htarget
    exact ih (page.step lower head)
      (step_good lower page head hgood (hvalid head (List.mem_cons_self _ _)))
      (fun ev hev => hvalid ev (List.mem_cons_of_mem _ hev)) event p htarget

/-! ## Navigation controls: settled claims -/

/-- C28 (the code departs from the claim): `bigSite` lists thirteen groups, the
last without any version, and loads without error at page size 12.  After
`init` the page shows page 1 of 2 and the next button is enabled; its click
calls `goToPage(2)`, which throws while building the card of the versionless
entry, so `updatePagination` is not reached and the controls are not redrawn:
`currentPage` is 2 = `totalPages`, yet the next button is still enabled, and a
second click calls `goToPage(3)`, which runs `renderEntries` with
`currentPage = 3`, outside `[1, 2]`. -/
theorem stale_next_button_leaves_page_range :
    (loadGraphData constructed bigSite 12 bigOrder).error = none ∧
    bigPage.lib.currentPage = 1 ∧ bigPage.lib.totalPages = 2 ∧
    bigPage.target UIEvent.next = some 2 ∧
    (goToPage bigPage.lib 2).error = some JSError.typeError ∧
    (bigPage.step asciiLower UIEvent.next).lib.currentPage = 2 ∧
    (bigPage.step asciiLower UIEvent.next).lib.totalPages = 2 ∧
    (bigPage.step asciiLower UIEvent.next).buttons.nextDisabled = false ∧
    (bigPage.step asciiLower UIEvent.next).target UIEvent.next = some 3 ∧
    (bigPage.step asciiLower UIEvent.next).call asciiLower UIEvent.next
      = some (goToPage (bigPage.step asciiLower UIEvent.next).lib 3) ∧
    (goToPage (bigPage.step asciiLower UIEvent.next).lib 3).state.container
      = getCurrentPageEntries
          { (bigPage.step asciiLower UIEvent.next).lib with currentPage := 3 } := by
  decide

end GraphViewer
